import Mathlib

/-!
# UltimateStarterKit: menu navigation, character jump, weapon and projectile

A shallow embedding of `Widgets/Menu.cpp`, `Character/USKCharacter.cpp`,
`Weapons/Weapon.cpp` and `Weapons/WeaponProjectile.cpp`.

Conventions of the embedding:

* a non-null `UMenuItem*` is a natural number (the address of the item), a
  nullable pointer is an `Option Nat`, `nullptr` is `none`;
* the objects behind the pointers live in a heap `Nat → UMenuItem` carried by
  the menu state;
* `float` properties that are only copied, negated or scaled are integers;
* calls into the engine, or into classes of the plugin whose source is not
  available, are appended to a call log carried by the state.
-/

namespace USK

/-! ## Menu: data model -/

/-- The navigation modes of a menu item along one axis (`EMenuNavigation`, the
three cases of the `switch` in `UMenu::UpdateHighlightedItem`). -/
inductive EMenuNavigation where
  | Disabled
  | HighlightItem
  | IncreaseDecreaseValue
  deriving DecidableEq, Repr

/-- The ways the value of a menu item is updated (`EMenuItemValueUpdateMethod`).
`Menu.cpp` only ever compares with `Hold`; `SinglePress` stands for every other
enumerator. -/
inductive EMenuItemValueUpdateMethod where
  | SinglePress
  | Hold
  deriving DecidableEq, Repr

/-- The properties of a `UMenuItem` that `Menu.cpp` reads or writes.
`Visible` is the answer of the engine's `UWidget::IsVisible()`, `Highlighted`
the state that `SetHighlightedState` puts the item in, `Menu` the back pointer
assigned by `UMenu::InitializeMenuItems`. -/
structure UMenuItem where
  FocusByDefault : Bool
  AllowSelection : Bool
  MenuItemUp : Option Nat
  MenuItemDown : Option Nat
  MenuItemLeft : Option Nat
  MenuItemRight : Option Nat
  VerticalNavigation : EMenuNavigation
  HorizontalNavigation : EMenuNavigation
  ValueUpdateMethod : EMenuItemValueUpdateMethod
  IncrementSinglePress : Int
  IncrementHold : Int
  Visible : Bool
  Highlighted : Bool
  Menu : Option Nat
  deriving DecidableEq, Repr

/-- The calls a menu makes into the engine or into `UMenuItem`, in the order
they are made. -/
inductive MenuCall where
  | UpdateValue (Item : Nat) (Delta : Int)
  | ScrollWidgetIntoView (Container : Nat) (Item : Nat)
  | PlaySelectedSFX
  | OnSelectedBroadcast (Item : Nat)
  | PlayBackSFX
  | OnBackBroadcast
  | BindVisibilityChanged
  deriving DecidableEq, Repr

/-- The state of a `UMenu` together with the heap of menu items it points
into. `This` is the address of the menu itself. -/
structure UMenu where
  This : Nat
  Items : Nat → UMenuItem
  CurrentMenuItem : Option Nat
  HighlightedMenuItemBeforeRemoval : Option Nat
  ScrollContainer : Option Nat
  Calls : List MenuCall

/-- A widget of the widget tree: either a `UMenuItem` (with its address) or a
widget of any other class. -/
inductive UWidget where
  | Other
  | MenuItem (Ptr : Nat)
  deriving DecidableEq, Repr

/-- The test `Widget->IsA(UMenuItem::StaticClass())` followed by
`dynamic_cast<UMenuItem*>(Widget)`: the item behind the widget, or null. -/
def UWidget.AsMenuItem : UWidget → Option Nat
  | .Other => none
  | .MenuItem p => some p

/-! ## Menu: operations -/

/-- Write through a `UMenuItem*`: replace the item at address `p` by `f` of
it. -/
def UMenu.ModifyItem (s : UMenu) (p : Nat) (f : UMenuItem → UMenuItem) : UMenu :=
  { s with Items := fun q => if q = p then f (s.Items q) else s.Items q }

/-- Modelled from the spec: `UMenuItem::SetHighlightedState(IsHighlighted,
PlayHighlightedSound, PlayHighlightedAnimation)` is defined in `MenuItem.cpp`,
which is not among the sources. The spec speaks of items being put in and out
of "the highlighted state": the call makes `IsHighlighted` the highlighted
state of the item. -/
def UMenuItem.SetHighlightedState (it : UMenuItem)
    (IsHighlighted _PlayHighlightedSound _PlayHighlightedAnimation : Bool) : UMenuItem :=
  { it with Highlighted := IsHighlighted }

/-- The call `Item->SetHighlightedState(...)` made by a menu. -/
def UMenu.SetHighlightedState (s : UMenu) (p : Nat)
    (IsHighlighted PlayHighlightedSound PlayHighlightedAnimation : Bool) : UMenu :=
  s.ModifyItem p (fun it =>
    it.SetHighlightedState IsHighlighted PlayHighlightedSound PlayHighlightedAnimation)

/-- Modelled from the spec: `UMenuItem::UpdateValue(float)` is defined in
`MenuItem.cpp`, which is not among the sources. The call is recorded in the
call log with the item and the delta it receives. -/
def UMenu.UpdateValue (s : UMenu) (p : Nat) (Delta : Int) : UMenu :=
  { s with Calls := s.Calls ++ [MenuCall.UpdateValue p Delta] }

/-- One iteration of the loop of `UMenu::InitializeMenuItems`; the second
component is the local `FallbackMenuItem`. -/
def InitializeMenuItemsStep (acc : UMenu × Option Nat) (Widget : UWidget) :
    UMenu × Option Nat :=
  match Widget.AsMenuItem with
  | none => acc
  | some MenuItem =>
    let s := acc.1.ModifyItem MenuItem (fun it => { it with Menu := some acc.1.This })
    if s.CurrentMenuItem ≠ none then (s, acc.2)
    else
      let Fallback := if acc.2 = none then some MenuItem else acc.2
      if (s.Items MenuItem).FocusByDefault = false then (s, Fallback)
      else ({ s with CurrentMenuItem := some MenuItem }, Fallback)

/-- `UMenu::InitializeMenuItems`: `Children` is the result of
`WidgetTree->GetAllWidgets`, the widgets in tree order. -/
def UMenu.InitializeMenuItems (s : UMenu) (Children : List UWidget) : UMenu :=
  let r := Children.foldl InitializeMenuItemsStep (s, none)
  if r.1.CurrentMenuItem = none then { r.1 with CurrentMenuItem := r.2 } else r.1

/-- `UMenu::NativeConstruct`. -/
def UMenu.NativeConstruct (s : UMenu) (Children : List UWidget) : UMenu :=
  let s1 := s.InitializeMenuItems Children
  let s2 := match s1.CurrentMenuItem with
    | some c => s1.SetHighlightedState c true false false
    | none => s1
  { s2 with Calls := s2.Calls ++ [MenuCall.BindVisibilityChanged] }

/-- `UMenu::UpdateHighlightedItem`. -/
def UMenu.UpdateHighlightedItem (s : UMenu) (NewItem : Option Nat)
    (MenuNavigation : EMenuNavigation) (IncreaseValue IsHolding : Bool) : UMenu :=
  match MenuNavigation with
  | .Disabled => s
  | .HighlightItem =>
    if (match NewItem with
        | some n => !(s.Items n).Visible
        | none => false) then s
    else
      let s1 := match s.CurrentMenuItem with
        | some c => s.SetHighlightedState c false false false
        | none => s
      let s2 := { s1 with CurrentMenuItem := NewItem }
      match NewItem with
      | some n =>
        let s3 := s2.SetHighlightedState n true true true
        match s3.ScrollContainer with
        | some sc => { s3 with Calls := s3.Calls ++ [MenuCall.ScrollWidgetIntoView sc n] }
        | none => s3
      | none => s2
  | .IncreaseDecreaseValue =>
    match s.CurrentMenuItem with
    | none => s
    | some c =>
      if (s.Items c).ValueUpdateMethod ≠ EMenuItemValueUpdateMethod.Hold ∨
          ((s.Items c).ValueUpdateMethod = EMenuItemValueUpdateMethod.Hold ∧ IsHolding = true) then
        let Value := if IsHolding then (s.Items c).IncrementHold
                     else (s.Items c).IncrementSinglePress
        s.UpdateValue c (if IncreaseValue then Value else -Value)
      else s

/-- `UMenu::UpdateHighlightedItemBeforeNavigation`. -/
def UMenu.UpdateHighlightedItemBeforeNavigation (s : UMenu) (IsVerticalNavigation : Bool) :
    UMenu :=
  match s.CurrentMenuItem, s.HighlightedMenuItemBeforeRemoval with
  | some _, _ => s
  | none, none => s
  | none, some h =>
    let ItemNavigation := if IsVerticalNavigation then (s.Items h).VerticalNavigation
                          else (s.Items h).HorizontalNavigation
    if ItemNavigation ≠ EMenuNavigation.HighlightItem then s
    else
      let s1 := { s with CurrentMenuItem := some h }
      let s2 := s1.SetHighlightedState h true false false
      { s2 with HighlightedMenuItemBeforeRemoval := none }

/-- `UMenu::OnMenuUp`. -/
def UMenu.OnMenuUp (s : UMenu) : UMenu :=
  let s1 := s.UpdateHighlightedItemBeforeNavigation true
  match s1.CurrentMenuItem with
  | none => s1.UpdateHighlightedItem none EMenuNavigation.Disabled true false
  | some c => s1.UpdateHighlightedItem (s1.Items c).MenuItemUp (s1.Items c).VerticalNavigation
      true false

/-- `UMenu::OnMenuDown`. -/
def UMenu.OnMenuDown (s : UMenu) : UMenu :=
  let s1 := s.UpdateHighlightedItemBeforeNavigation true
  match s1.CurrentMenuItem with
  | none => s1.UpdateHighlightedItem none EMenuNavigation.Disabled false false
  | some c => s1.UpdateHighlightedItem (s1.Items c).MenuItemDown (s1.Items c).VerticalNavigation
      false false

/-- `UMenu::OnMenuLeft`. -/
def UMenu.OnMenuLeft (s : UMenu) : UMenu :=
  let s1 := s.UpdateHighlightedItemBeforeNavigation false
  match s1.CurrentMenuItem with
  | none => s1.UpdateHighlightedItem none EMenuNavigation.Disabled false false
  | some c => s1.UpdateHighlightedItem (s1.Items c).MenuItemLeft
      (s1.Items c).HorizontalNavigation false false

/-- `UMenu::OnMenuRight`. -/
def UMenu.OnMenuRight (s : UMenu) : UMenu :=
  let s1 := s.UpdateHighlightedItemBeforeNavigation false
  match s1.CurrentMenuItem with
  | none => s1.UpdateHighlightedItem none EMenuNavigation.Disabled true false
  | some c => s1.UpdateHighlightedItem (s1.Items c).MenuItemRight
      (s1.Items c).HorizontalNavigation true false

/-- `UMenu::OnMenuUpHold`. -/
def UMenu.OnMenuUpHold (s : UMenu) : UMenu :=
  match s.CurrentMenuItem with
  | none => s
  | some c =>
    if (s.Items c).ValueUpdateMethod ≠ EMenuItemValueUpdateMethod.Hold ∨
        (s.Items c).VerticalNavigation ≠ EMenuNavigation.IncreaseDecreaseValue then s
    else s.UpdateHighlightedItem none EMenuNavigation.IncreaseDecreaseValue true true

/-- `UMenu::OnMenuDownHold`. -/
def UMenu.OnMenuDownHold (s : UMenu) : UMenu :=
  match s.CurrentMenuItem with
  | none => s
  | some c =>
    if (s.Items c).ValueUpdateMethod ≠ EMenuItemValueUpdateMethod.Hold ∨
        (s.Items c).VerticalNavigation ≠ EMenuNavigation.IncreaseDecreaseValue then s
    else s.UpdateHighlightedItem none EMenuNavigation.IncreaseDecreaseValue false true

/-- `UMenu::OnMenuLeftHold`. -/
def UMenu.OnMenuLeftHold (s : UMenu) : UMenu :=
  match s.CurrentMenuItem with
  | none => s
  | some c =>
    if (s.Items c).ValueUpdateMethod ≠ EMenuItemValueUpdateMethod.Hold ∨
        (s.Items c).HorizontalNavigation ≠ EMenuNavigation.IncreaseDecreaseValue then s
    else s.UpdateHighlightedItem none EMenuNavigation.IncreaseDecreaseValue false true

/-- `UMenu::OnMenuRightHold`. -/
def UMenu.OnMenuRightHold (s : UMenu) : UMenu :=
  match s.CurrentMenuItem with
  | none => s
  | some c =>
    if (s.Items c).ValueUpdateMethod ≠ EMenuItemValueUpdateMethod.Hold ∨
        (s.Items c).HorizontalNavigation ≠ EMenuNavigation.IncreaseDecreaseValue then s
    else s.UpdateHighlightedItem none EMenuNavigation.IncreaseDecreaseValue true true

/-- `UMenu::OnMenuSelected`. -/
def UMenu.OnMenuSelected (s : UMenu) : UMenu :=
  match s.CurrentMenuItem with
  | none => s
  | some c =>
    if (s.Items c).AllowSelection = true then
      { s with Calls := s.Calls ++ [MenuCall.PlaySelectedSFX, MenuCall.OnSelectedBroadcast c] }
    else s

/-- `UMenu::OnMenuBack`. -/
def UMenu.OnMenuBack (s : UMenu) : UMenu :=
  { s with Calls := s.Calls ++ [MenuCall.PlayBackSFX, MenuCall.OnBackBroadcast] }

/-- `UMenu::RequestHighlight`. -/
def UMenu.RequestHighlight (s : UMenu) (MenuItem : Option Nat) : UMenu :=
  if s.CurrentMenuItem = MenuItem then s
  else s.UpdateHighlightedItem MenuItem EMenuNavigation.HighlightItem false false

/-- `UMenu::RemoveHighlight`. -/
def UMenu.RemoveHighlight (s : UMenu) (MenuItem : Option Nat) : UMenu :=
  if s.CurrentMenuItem ≠ MenuItem then s
  else
    let s1 := { s with HighlightedMenuItemBeforeRemoval := s.CurrentMenuItem }
    s1.UpdateHighlightedItem none EMenuNavigation.HighlightItem false false

/-! ## Menu: the default item, as the specification words it -/

/-- The menu items of the widget tree, in tree order. -/
def MenuItemsOf (Children : List UWidget) : List Nat :=
  Children.filterMap UWidget.AsMenuItem

/-- The first menu item in tree order that has `FocusByDefault` set. -/
def FirstFocusByDefault (s : UMenu) (Children : List UWidget) : Option Nat :=
  (MenuItemsOf Children).find? (fun p => (s.Items p).FocusByDefault)

/-! ## Character: data model and operations -/

/-- An `FVector`; the components are integers in the embedding. -/
structure FVector where
  X : Int
  Y : Int
  Z : Int
  deriving DecidableEq, Repr

/-- Component-wise sum of two vectors (`FVector::operator+`). -/
def FVector.Add (a b : FVector) : FVector :=
  { X := a.X + b.X, Y := a.Y + b.Y, Z := a.Z + b.Z }

/-- A vector scaled by a factor (`FVector::operator*`). -/
def FVector.Scale (a : FVector) (k : Int) : FVector :=
  { X := a.X * k, Y := a.Y * k, Z := a.Z * k }

/-- The calls `AUSKCharacter` makes into the engine, in the order they are
made. -/
inductive CharacterCall where
  | SuperJump
  | LaunchCharacter (LaunchVelocity : FVector) (XYOverride ZOverride : Bool)
  | PlayJumpSound
  | SpawnJumpParticleFx (Fx : Nat) (Location : FVector)
  | SuperLanded
  | PlayLandedSound
  | SpawnLandParticleFx (Fx : Nat) (Location : FVector)
  | SuperOnMovementModeChanged
  | RetriggerableDelayResetCoyoteJump
  deriving DecidableEq, Repr

/-- The properties of an `AUSKCharacter` read or written by `Jump`, `Landed`,
`OnMovementModeChanged` and `ResetCoyoteJump`. `JumpMaxCount` and
`JumpCurrentCount` are the fields of the engine's `ACharacter`. -/
structure AUSKCharacter where
  CanDoubleJump : Bool
  CoyoteJumpVelocity : Int
  JumpParticleFx : Option Nat
  JumpParticleFxSpawnOffset : FVector
  LandParticleFx : Option Nat
  LandParticleFxSpawnOffset : FVector
  ActorLocation : FVector
  JumpMaxCount : Int
  JumpCurrentCount : Int
  CanPerformCoyoteJump : Bool
  CoyoteJumpPerformed : Bool
  IsDoubleJumping : Bool
  Calls : List CharacterCall
  deriving DecidableEq, Repr

/-- `AUSKCharacter::Jump`. `CanJump` is the answer of the engine's
`ACharacter::CanJump()`; the function asks twice without changing anything in
between. `Super::Jump()` is the engine's regular jump; it only requests the
jump (`bPressedJump`) and leaves `JumpCurrentCount` as it is. -/
def AUSKCharacter.Jump (s : AUSKCharacter) (CanJump : Bool) : AUSKCharacter :=
  if CanJump = false ∧ s.CanPerformCoyoteJump = false then s
  else
    let r : AUSKCharacter × Bool :=
      if CanJump = true then
        ({ s with Calls := s.Calls ++ [CharacterCall.SuperJump] }, true)
      else
        ({ s with
            Calls := s.Calls ++
              [CharacterCall.LaunchCharacter ⟨0, 0, s.CoyoteJumpVelocity⟩ false true]
            CoyoteJumpPerformed := true
            CanPerformCoyoteJump := false }, false)
    let s1 := r.1
    let WasRegularJump := r.2
    let s2 := { s1 with JumpMaxCount := if s1.CanDoubleJump then 2 else 1 }
    let s3 := { s2 with
      IsDoubleJumping := WasRegularJump && (s2.CoyoteJumpPerformed || decide (s2.JumpCurrentCount > 0)) }
    let s4 := { s3 with Calls := s3.Calls ++ [CharacterCall.PlayJumpSound] }
    match s4.JumpParticleFx with
    | some fx =>
      { s4 with Calls := s4.Calls ++
          [CharacterCall.SpawnJumpParticleFx fx (s4.ActorLocation.Add s4.JumpParticleFxSpawnOffset)] }
    | none => s4

/-- `AUSKCharacter::Landed`; `HitLocation` is `Hit.Location`. -/
def AUSKCharacter.Landed (s : AUSKCharacter) (HitLocation : FVector) : AUSKCharacter :=
  let s1 := { s with Calls := s.Calls ++ [CharacterCall.SuperLanded] }
  let s2 := { s1 with JumpMaxCount := 1, CoyoteJumpPerformed := false }
  let s3 := { s2 with Calls := s2.Calls ++ [CharacterCall.PlayLandedSound] }
  match s3.LandParticleFx with
  | some fx =>
    { s3 with Calls := s3.Calls ++
        [CharacterCall.SpawnLandParticleFx fx (HitLocation.Add s3.LandParticleFxSpawnOffset)] }
  | none => s3

/-- `AUSKCharacter::OnMovementModeChanged`; `IsFalling` tells whether the
movement component's `MovementMode` is `MOVE_Falling`. -/
def AUSKCharacter.OnMovementModeChanged (s : AUSKCharacter) (IsFalling : Bool) : AUSKCharacter :=
  let s1 := { s with Calls := s.Calls ++ [CharacterCall.SuperOnMovementModeChanged] }
  if IsFalling = false then s1
  else
    { s1 with
      CanPerformCoyoteJump := true
      Calls := s1.Calls ++ [CharacterCall.RetriggerableDelayResetCoyoteJump] }

/-- `AUSKCharacter::ResetCoyoteJump`. -/
def AUSKCharacter.ResetCoyoteJump (s : AUSKCharacter) : AUSKCharacter :=
  { s with CanPerformCoyoteJump := false }

/-- What can happen to a character between two frames: one of the callbacks
above, or the engine writing its own field `JumpCurrentCount`. -/
inductive CharacterEvent where
  | Jump (CanJump : Bool)
  | Landed (HitLocation : FVector)
  | MovementModeChanged (IsFalling : Bool)
  | ResetCoyoteJump
  | EngineSetsJumpCurrentCount (Count : Int)
  deriving DecidableEq, Repr

/-- The character after one event. -/
def AUSKCharacter.Step (s : AUSKCharacter) : CharacterEvent → AUSKCharacter
  | .Jump CanJump => s.Jump CanJump
  | .Landed HitLocation => s.Landed HitLocation
  | .MovementModeChanged IsFalling => s.OnMovementModeChanged IsFalling
  | .ResetCoyoteJump => s.ResetCoyoteJump
  | .EngineSetsJumpCurrentCount Count => { s with JumpCurrentCount := Count }

/-- The character after a sequence of events. -/
def AUSKCharacter.Run (s : AUSKCharacter) (es : List CharacterEvent) : AUSKCharacter :=
  es.foldl AUSKCharacter.Step s

/-- The event is a `Jump` that takes the coyote branch in state `s`. -/
def IsCoyoteJump (s : AUSKCharacter) : CharacterEvent → Bool
  | .Jump CanJump => !CanJump && s.CanPerformCoyoteJump
  | _ => false

/-- The event is a `Jump` that takes the regular branch. -/
def IsRegularJump : CharacterEvent → Bool
  | .Jump CanJump => CanJump
  | _ => false

/-- The event is a `Landed`. -/
def IsLanded : CharacterEvent → Bool
  | .Landed _ => true
  | _ => false

/-- A coyote jump is performed while the events `es` run from state `s`. -/
def CoyoteJumpDuring : AUSKCharacter → List CharacterEvent → Bool
  | _, [] => false
  | s, e :: es => IsCoyoteJump s e || CoyoteJumpDuring (s.Step e) es

/-- The sound and the particle effect that accompany every jump of the
character, as calls: the last statements of `AUSKCharacter::Jump`. -/
def AUSKCharacter.JumpEffects (s : AUSKCharacter) : List CharacterCall :=
  CharacterCall.PlayJumpSound ::
    (match s.JumpParticleFx with
      | some fx =>
        [CharacterCall.SpawnJumpParticleFx fx (s.ActorLocation.Add s.JumpParticleFxSpawnOffset)]
      | none => [])

/-! ## Projectile -/

/-- A non-null `UObject*`: the address of the object and what the engine's
`IsValid` answers for it. -/
structure UObjectRef where
  Addr : Nat
  Valid : Bool
  deriving DecidableEq, Repr

/-- The engine's `IsValid(Ptr)`: the pointer is not null and the object is
valid. -/
def IsValid : Option UObjectRef → Bool
  | none => false
  | some o => o.Valid

/-- A non-null `UPrimitiveComponent*` with the answer of
`IsSimulatingPhysics()`. -/
structure UPrimitiveComponentRef where
  Addr : Nat
  Valid : Bool
  SimulatingPhysics : Bool
  deriving DecidableEq, Repr

/-- The calls `AWeaponProjectile::OnHit` makes into the engine. -/
inductive ProjectileCall where
  | AddImpulseAtLocation (Component : Nat) (Impulse : FVector) (Location : FVector)
  | Destroy
  deriving DecidableEq, Repr

/-- The state of an `AWeaponProjectile` seen by `OnHit`: its address, the
answers of `GetVelocity()` and `GetActorLocation()`, and the calls made. -/
structure AWeaponProjectile where
  This : Nat
  Velocity : FVector
  ActorLocation : FVector
  Calls : List ProjectileCall
  deriving DecidableEq, Repr

/-- `AWeaponProjectile::OnHit`. -/
def AWeaponProjectile.OnHit (s : AWeaponProjectile) (OtherActor : Option UObjectRef)
    (OtherComponent : Option UPrimitiveComponentRef) : AWeaponProjectile :=
  if OtherActor.map UObjectRef.Addr = some s.This then s
  else
    let s1 :=
      match OtherComponent with
      | some c =>
        if IsValid OtherActor && c.Valid && c.SimulatingPhysics then
          { s with Calls := s.Calls ++
              [ProjectileCall.AddImpulseAtLocation c.Addr (s.Velocity.Scale 100) s.ActorLocation] }
        else s
      | none => s
    { s1 with Calls := s1.Calls ++ [ProjectileCall.Destroy] }

/-! ## Weapon -/

/-- An `FRotator`; the components are integers in the embedding. -/
structure FRotator where
  Pitch : Int
  Yaw : Int
  Roll : Int
  deriving DecidableEq, Repr

/-- A non-null `AController*`: whether `IsValid` holds, whether
`dynamic_cast<APlayerController*>` succeeds, and, for a player controller, the
camera rotation of its `PlayerCameraManager` (null when it has none). -/
structure AControllerRef where
  Valid : Bool
  IsPlayerController : Bool
  PlayerCameraManager : Option FRotator
  deriving DecidableEq, Repr

/-- A non-null `AUSKCharacter*` as a weapon sees it: whether `IsValid` holds
and the answer of `GetController()`. -/
structure AUSKCharacterRef where
  Addr : Nat
  Valid : Bool
  Controller : Option AControllerRef
  deriving DecidableEq, Repr

/-- The calls `AWeapon` makes into the engine, in the order they are made. -/
inductive WeaponCall where
  | AttachToComponent (Character : Nat)
  | SetWeapon (Character : Nat)
  | SpawnActor (ProjectileClass : Nat) (Location : FVector) (Rotation : FRotator)
  | PlaySound (Character : Nat) (FireSound : Option Nat)
  | PlayAnimMontage (Character : Nat) (FireAnimation : Nat)
  deriving DecidableEq, Repr

/-- The state of an `AWeapon`. -/
structure AWeapon where
  Character : Option AUSKCharacterRef
  ProjectileClass : Option UObjectRef
  FireSound : Option Nat
  FireAnimation : Option UObjectRef
  MuzzleOffset : FVector
  ActorLocation : FVector
  Calls : List WeaponCall
  deriving DecidableEq, Repr

/-- `AWeapon::AttachWeapon`. -/
def AWeapon.AttachWeapon (w : AWeapon) (TargetCharacter : Option AUSKCharacterRef) : AWeapon :=
  let w1 := { w with Character := TargetCharacter }
  match TargetCharacter with
  | none => w1
  | some c =>
    if c.Valid = false then w1
    else { w1 with Calls := w1.Calls ++ [WeaponCall.AttachToComponent c.Addr, WeaponCall.SetWeapon c.Addr] }

/-- `AWeapon::SpawnProjectile`, called with a non-null `Character`. The result
is `none` when a null pointer is dereferenced. `RotateVector` is the engine's
`FRotator::RotateVector`. -/
def AWeapon.SpawnProjectile (RotateVector : FRotator → FVector → FVector) (w : AWeapon)
    (Character : AUSKCharacterRef) : Option AWeapon :=
  match w.ProjectileClass with
  | none => some w
  | some cls =>
    if cls.Valid = false then some w
    else
      match Character.Controller with
      | none => none
      | some Controller =>
        if Controller.IsPlayerController = false then none
        else
          match Controller.PlayerCameraManager with
          | none => none
          | some SpawnRotation =>
            let SpawnLocation := w.ActorLocation.Add (RotateVector SpawnRotation w.MuzzleOffset)
            some { w with Calls := w.Calls ++
              [WeaponCall.SpawnActor cls.Addr SpawnLocation SpawnRotation,
               WeaponCall.PlaySound Character.Addr w.FireSound] }

/-- `AWeapon::PlayFireAnimation`, called with a non-null `Character`. -/
def AWeapon.PlayFireAnimation (w : AWeapon) (Character : AUSKCharacterRef) : AWeapon :=
  match w.FireAnimation with
  | none => w
  | some anim =>
    if anim.Valid = false then w
    else { w with Calls := w.Calls ++ [WeaponCall.PlayAnimMontage Character.Addr anim.Addr] }

/-- `AWeapon::Fire`. The result is `none` when a null pointer is
dereferenced. -/
def AWeapon.Fire (RotateVector : FRotator → FVector → FVector) (w : AWeapon) : Option AWeapon :=
  match w.Character with
  | none => some w
  | some Character =>
    if Character.Valid = false then some w
    else
      match Character.Controller with
      | none => some w
      | some Controller =>
        if Controller.Valid = false then some w
        else
          match w.SpawnProjectile RotateVector Character with
          | none => none
          | some w1 => some (w1.PlayFireAnimation Character)

/-! ## Menu: the four directions -/

/-- The four directions of menu navigation. -/
inductive EMenuDirection where
  | Up
  | Down
  | Left
  | Right
  deriving DecidableEq, Repr

/-- The press handler of a direction: `OnMenuUp`, `OnMenuDown`, `OnMenuLeft` or
`OnMenuRight`. -/
def UMenu.Press (s : UMenu) : EMenuDirection → UMenu
  | .Up => s.OnMenuUp
  | .Down => s.OnMenuDown
  | .Left => s.OnMenuLeft
  | .Right => s.OnMenuRight

/-- The hold handler of a direction: `OnMenuUpHold`, `OnMenuDownHold`,
`OnMenuLeftHold` or `OnMenuRightHold`. -/
def UMenu.Hold (s : UMenu) : EMenuDirection → UMenu
  | .Up => s.OnMenuUpHold
  | .Down => s.OnMenuDownHold
  | .Left => s.OnMenuLeftHold
  | .Right => s.OnMenuRightHold

/-- The neighbour of an item in a direction: `MenuItemUp`, `MenuItemDown`,
`MenuItemLeft` or `MenuItemRight`. -/
def UMenuItem.Neighbour (it : UMenuItem) : EMenuDirection → Option Nat
  | .Up => it.MenuItemUp
  | .Down => it.MenuItemDown
  | .Left => it.MenuItemLeft
  | .Right => it.MenuItemRight

/-- The navigation mode of an item on the axis of a direction:
`VerticalNavigation` for up and down, `HorizontalNavigation` for left and
right. -/
def UMenuItem.Navigation (it : UMenuItem) : EMenuDirection → EMenuNavigation
  | .Up => it.VerticalNavigation
  | .Down => it.VerticalNavigation
  | .Left => it.HorizontalNavigation
  | .Right => it.HorizontalNavigation

/-- The delta the specification gives for a direction and a magnitude: the
magnitude itself for up and right, its negation for down and left. -/
def EMenuDirection.Delta (d : EMenuDirection) (Value : Int) : Int :=
  match d with
  | .Up => Value
  | .Right => Value
  | .Down => -Value
  | .Left => -Value

/-! ## Menu: sequences of handler calls -/

/-- The handler calls a constructed menu can receive: the four presses, the
four holds, `OnMenuSelected`, `RequestHighlight` and `RemoveHighlight` with
their argument. -/
inductive MenuEvent where
  | Press (d : EMenuDirection)
  | Hold (d : EMenuDirection)
  | Selected
  | RequestHighlight (MenuItem : Option Nat)
  | RemoveHighlight (MenuItem : Option Nat)
  deriving DecidableEq, Repr

/-- The menu after one handler call. -/
def UMenu.Step (s : UMenu) : MenuEvent → UMenu
  | .Press d => s.Press d
  | .Hold d => s.Hold d
  | .Selected => s.OnMenuSelected
  | .RequestHighlight MenuItem => s.RequestHighlight MenuItem
  | .RemoveHighlight MenuItem => s.RemoveHighlight MenuItem

/-- The menu after a sequence of handler calls. -/
def UMenu.Run (s : UMenu) (es : List MenuEvent) : UMenu :=
  es.foldl UMenu.Step s

/-- The event is a press or a hold of a direction. -/
def MenuEvent.IsNavigation : MenuEvent → Bool
  | .Press _ => true
  | .Hold _ => true
  | _ => false

/-! ## Menu: input action bindings -/

/-- The engine's `ETriggerEvent`. -/
inductive ETriggerEvent where
  | None
  | Triggered
  | Started
  | Ongoing
  | Canceled
  | Completed
  deriving DecidableEq, Repr

/-- The input actions of a menu: the properties `MenuUpInputAction`,
`MenuDownInputAction`, `MenuLeftInputAction`, `MenuRightInputAction`,
`MenuSelectInputAction` and `MenuBackInputAction`. -/
inductive EMenuInputAction where
  | MenuUpInputAction
  | MenuDownInputAction
  | MenuLeftInputAction
  | MenuRightInputAction
  | MenuSelectInputAction
  | MenuBackInputAction
  deriving DecidableEq, Repr

/-- The member functions of `UMenu` that are bound to input actions. -/
inductive EMenuHandler where
  | OnMenuUp
  | OnMenuUpHold
  | OnMenuDown
  | OnMenuDownHold
  | OnMenuLeft
  | OnMenuLeftHold
  | OnMenuRight
  | OnMenuRightHold
  | OnMenuSelected
  | OnMenuBack
  deriving DecidableEq, Repr

/-- One call `EnhancedInput->BindAction(Action, TriggerEvent, this, Handler)`. -/
structure ActionBinding where
  Action : EMenuInputAction
  TriggerEvent : ETriggerEvent
  Handler : EMenuHandler
  deriving DecidableEq, Repr

/-- The part of the menu state that `InitializeActionBindings` works on: the
flag `bIsActionBindingsInitialized` and the bindings made so far on the
enhanced input component, in the order they were made. -/
structure UMenuBindings where
  bIsActionBindingsInitialized : Bool
  Bindings : List ActionBinding
  deriving DecidableEq, Repr

/-- A non-null `APawn*` as `InitializeActionBindings` sees it:
`EnhancedInputComponent` tells whether
`Cast<UEnhancedInputComponent>(Pawn->InputComponent)` is non-null. -/
structure APawnRef where
  EnhancedInputComponent : Bool
  deriving DecidableEq, Repr

/-- `UMenu::InitializeActionBindings`; `Pawn` is the answer of
`PlayerController->GetPawn()`. The result is `none` when a null pointer is
dereferenced. -/
def UMenuBindings.InitializeActionBindings (s : UMenuBindings) (Pawn : Option APawnRef) :
    Option UMenuBindings :=
  if s.bIsActionBindingsInitialized then some s
  else
    match Pawn with
    | none => none
    | some p =>
      if p.EnhancedInputComponent = false then some s
      else
        some
          { bIsActionBindingsInitialized := true
            Bindings := s.Bindings ++
              [ ⟨.MenuUpInputAction, .Started, .OnMenuUp⟩,
                ⟨.MenuUpInputAction, .Started, .OnMenuUpHold⟩,
                ⟨.MenuDownInputAction, .Started, .OnMenuDown⟩,
                ⟨.MenuDownInputAction, .Started, .OnMenuDownHold⟩,
                ⟨.MenuLeftInputAction, .Started, .OnMenuLeft⟩,
                ⟨.MenuLeftInputAction, .Triggered, .OnMenuLeftHold⟩,
                ⟨.MenuRightInputAction, .Started, .OnMenuRight⟩,
                ⟨.MenuRightInputAction, .Triggered, .OnMenuRightHold⟩,
                ⟨.MenuSelectInputAction, .Started, .OnMenuSelected⟩,
                ⟨.MenuBackInputAction, .Started, .OnMenuBack⟩ ] }

/-- The input action a handler belongs to by its name. -/
def EMenuHandler.OwnAction : EMenuHandler → EMenuInputAction
  | .OnMenuUp => .MenuUpInputAction
  | .OnMenuUpHold => .MenuUpInputAction
  | .OnMenuDown => .MenuDownInputAction
  | .OnMenuDownHold => .MenuDownInputAction
  | .OnMenuLeft => .MenuLeftInputAction
  | .OnMenuLeftHold => .MenuLeftInputAction
  | .OnMenuRight => .MenuRightInputAction
  | .OnMenuRightHold => .MenuRightInputAction
  | .OnMenuSelected => .MenuSelectInputAction
  | .OnMenuBack => .MenuBackInputAction

/-- The handler is one of the four hold handlers. -/
def EMenuHandler.IsHold : EMenuHandler → Bool
  | .OnMenuUpHold => true
  | .OnMenuDownHold => true
  | .OnMenuLeftHold => true
  | .OnMenuRightHold => true
  | _ => false

/-- The trigger event the specification gives a handler: `Triggered`, which
repeats while the key is held, for a hold handler, `Started` for a press
handler. -/
def EMenuHandler.SpecifiedTriggerEvent (h : EMenuHandler) : ETriggerEvent :=
  if h.IsHold then ETriggerEvent.Triggered else ETriggerEvent.Started

/-! ## Example states -/

/-- A visible, selectable menu item without neighbours that navigates
vertically by highlighting and horizontally by changing its value. -/
def ExampleItem : UMenuItem :=
  { FocusByDefault := false
    AllowSelection := true
    MenuItemUp := none
    MenuItemDown := none
    MenuItemLeft := none
    MenuItemRight := none
    VerticalNavigation := EMenuNavigation.HighlightItem
    HorizontalNavigation := EMenuNavigation.IncreaseDecreaseValue
    ValueUpdateMethod := EMenuItemValueUpdateMethod.SinglePress
    IncrementSinglePress := 5
    IncrementHold := 1
    Visible := true
    Highlighted := false
    Menu := none }

/-- A heap with three items in a column: 1 above 2 above 3; item 2 has
`FocusByDefault`, item 3 is hidden. -/
def ExampleItems : Nat → UMenuItem
  | 1 => { ExampleItem with MenuItemDown := some 2 }
  | 2 => { ExampleItem with MenuItemUp := some 1, MenuItemDown := some 3, FocusByDefault := true }
  | 3 => { ExampleItem with MenuItemUp := some 2, Visible := false }
  | _ => ExampleItem

/-- A menu over `ExampleItems` that has not been constructed yet. -/
def ExampleMenu : UMenu :=
  { This := 100
    Items := ExampleItems
    CurrentMenuItem := none
    HighlightedMenuItemBeforeRemoval := none
    ScrollContainer := none
    Calls := [] }

/-- The widget tree of `ExampleMenu` in tree order. -/
def ExampleTree : List UWidget :=
  [UWidget.Other, UWidget.MenuItem 1, UWidget.Other, UWidget.MenuItem 2, UWidget.MenuItem 3]

/-- The menu `ExampleMenu` after `NativeConstruct`: item 2 is current and
highlighted. -/
def ExampleConstructed : UMenu := ExampleMenu.NativeConstruct ExampleTree

/-- A constructed menu whose only item, at address 1, is visible and is its own
upper neighbour. -/
def SelfLinkMenu : UMenu :=
  { This := 100
    Items := fun _ => { ExampleItem with MenuItemUp := some 1, Highlighted := true }
    CurrentMenuItem := some 1
    HighlightedMenuItemBeforeRemoval := none
    ScrollContainer := none
    Calls := [] }

/-- A constructed menu whose current item 1 changes its value on the vertical
axis by single presses, with `IncrementSinglePress` zero. -/
def ZeroIncrementMenu : UMenu :=
  { This := 100
    Items := fun _ =>
      { ExampleItem with
        VerticalNavigation := EMenuNavigation.IncreaseDecreaseValue
        IncrementSinglePress := 0
        Highlighted := true }
    CurrentMenuItem := some 1
    HighlightedMenuItemBeforeRemoval := none
    ScrollContainer := none
    Calls := [] }

/-- A character on the ground that may double jump, with a coyote jump velocity
of 600 and no particle effects. -/
def ExampleCharacter : AUSKCharacter :=
  { CanDoubleJump := true
    CoyoteJumpVelocity := 600
    JumpParticleFx := none
    JumpParticleFxSpawnOffset := ⟨0, 0, 0⟩
    LandParticleFx := none
    LandParticleFxSpawnOffset := ⟨0, 0, 0⟩
    ActorLocation := ⟨0, 0, 0⟩
    JumpMaxCount := 1
    JumpCurrentCount := 0
    CanPerformCoyoteJump := false
    CoyoteJumpPerformed := false
    IsDoubleJumping := false
    Calls := [] }

/-- The character `ExampleCharacter` walking off a ledge: the movement mode has
just changed to falling, so a coyote jump is available. -/
def ExampleFallingCharacter : AUSKCharacter :=
  ExampleCharacter.OnMovementModeChanged true

/-- The events of a character that lands, walks off a ledge and presses jump
while the engine refuses a regular jump: a coyote jump. -/
def ExampleCoyoteTrace : List CharacterEvent :=
  [CharacterEvent.MovementModeChanged true, CharacterEvent.Jump false]

/-- A projectile at address 7 flying along the x axis. -/
def ExampleProjectile : AWeaponProjectile :=
  { This := 7
    Velocity := ⟨3000, 0, 0⟩
    ActorLocation := ⟨10, 20, 30⟩
    Calls := [] }

/-- A stand-in for the engine's `FRotator::RotateVector` in the examples: the
rotation by the zero rotator. -/
def ExampleRotateVector : FRotator → FVector → FVector :=
  fun _ v => v

/-- A weapon with a valid projectile class and fire animation, held by a valid
character that is possessed by a valid controller which is not a player
controller (for instance an AI controller). -/
def ExampleAIWeapon : AWeapon :=
  { Character := some
      { Addr := 1
        Valid := true
        Controller := some { Valid := true, IsPlayerController := false, PlayerCameraManager := none } }
    ProjectileClass := some { Addr := 2, Valid := true }
    FireSound := some 3
    FireAnimation := some { Addr := 4, Valid := true }
    MuzzleOffset := ⟨100, 0, 10⟩
    ActorLocation := ⟨1, 2, 3⟩
    Calls := [] }

/-- The weapon of `ExampleAIWeapon` held by a character that is possessed by a
player controller with a camera manager. -/
def ExamplePlayerWeapon : AWeapon :=
  { ExampleAIWeapon with
    Character := some
      { Addr := 1
        Valid := true
        Controller := some
          { Valid := true, IsPlayerController := true, PlayerCameraManager := some ⟨0, 90, 0⟩ } } }

/-- The weapon of `ExampleAIWeapon` held by a character that is possessed by a
player controller without camera manager. -/
def ExampleNoCameraWeapon : AWeapon :=
  { ExampleAIWeapon with
    Character := some
      { Addr := 1
        Valid := true
        Controller := some
          { Valid := true, IsPlayerController := true, PlayerCameraManager := none } } }

/-- A menu on which `InitializeActionBindings` has not run yet. -/
def ExampleBindings : UMenuBindings :=
  { bIsActionBindingsInitialized := false, Bindings := [] }

/-- A pawn whose input component is an enhanced input component. -/
def ExamplePawn : APawnRef :=
  { EnhancedInputComponent := true }

/-- The constructed example menu after a press of up: item 1, which has no
upper neighbour, is current. -/
def ExampleAtTop : UMenu := ExampleConstructed.Press EMenuDirection.Up

/-- A sequence of handler calls on the example menu. -/
def ExampleEvents : List MenuEvent :=
  [MenuEvent.Press EMenuDirection.Up, MenuEvent.RemoveHighlight (some 1),
   MenuEvent.Hold EMenuDirection.Left, MenuEvent.Press EMenuDirection.Down,
   MenuEvent.RequestHighlight (some 2), MenuEvent.Selected]

/-- A sequence of presses and holds. -/
def ExampleNavigation : List MenuEvent :=
  [MenuEvent.Press EMenuDirection.Down, MenuEvent.Hold EMenuDirection.Right,
   MenuEvent.Press EMenuDirection.Left, MenuEvent.Press EMenuDirection.Up]

/-! ## Theorems -/

/-- The loop of `InitializeMenuItems` never changes `FocusByDefault`, keeps a
current item once there is one, otherwise makes the first item with
`FocusByDefault` current; the fallback is the first item seen while there was
no current item. -/
theorem InitializeMenuItems_loop (foc : Nat → Bool) (l : List UWidget) :
    ∀ acc : UMenu × Option Nat, (∀ p, (acc.1.Items p).FocusByDefault = foc p) →
      (∀ p, ((l.foldl InitializeMenuItemsStep acc).1.Items p).FocusByDefault = foc p) ∧
      (l.foldl InitializeMenuItemsStep acc).1.CurrentMenuItem =
        (match acc.1.CurrentMenuItem with
          | some c => some c
          | none => (MenuItemsOf l).find? foc) ∧
      (l.foldl InitializeMenuItemsStep acc).2 =
        (match acc.1.CurrentMenuItem, acc.2 with
          | some _, fb => fb
          | none, some fb => some fb
          | none, none => (MenuItemsOf l).head?) := by
  induction l with
  | nil =>
    intro acc hf
    refine ⟨hf, ?_, ?_⟩
    · cases h : acc.1.CurrentMenuItem <;> simp [MenuItemsOf, h]
    · cases h : acc.1.CurrentMenuItem <;> cases h2 : acc.2 <;> simp [MenuItemsOf, h, h2]
  | cons w l ih =>
    intro acc hf
    cases w with
    | Other =>
      have hstep : InitializeMenuItemsStep acc UWidget.Other = acc := rfl
      simpa [List.foldl_cons, hstep, MenuItemsOf, UWidget.AsMenuItem] using ih acc hf
    | MenuItem p =>
      rw [List.foldl_cons]
      have hfp : foc p = (acc.1.Items p).FocusByDefault := (hf p).symm
      have hf1 : ∀ q, ((InitializeMenuItemsStep acc (UWidget.MenuItem p)).1.Items q).FocusByDefault
          = foc q := by
        intro q
        simp only [InitializeMenuItemsStep, UWidget.AsMenuItem, UMenu.ModifyItem]
        split_ifs <;> (by_cases hq : q = p <;> simp [hq, ← hf])
      obtain ⟨i1, i2, i3⟩ := ih (InitializeMenuItemsStep acc (UWidget.MenuItem p)) hf1
      refine ⟨i1, ?_, ?_⟩
      · rw [i2]
        cases hc : acc.1.CurrentMenuItem <;> cases hfoc : (acc.1.Items p).FocusByDefault <;>
          simp [InitializeMenuItemsStep, UWidget.AsMenuItem, UMenu.ModifyItem, MenuItemsOf,
            List.find?_cons, hc, hfoc, hfp]
      · rw [i3]
        cases hc : acc.1.CurrentMenuItem <;> cases hfoc : (acc.1.Items p).FocusByDefault <;>
          cases hfb : acc.2 <;>
          simp [InitializeMenuItemsStep, UWidget.AsMenuItem, UMenu.ModifyItem, MenuItemsOf,
            hc, hfoc, hfb]

/-- The current item chosen by `InitializeMenuItems` on a menu without a
current item: the first item with `FocusByDefault`, else the first item. -/
theorem InitializeMenuItems_current (s : UMenu) (Children : List UWidget)
    (h : s.CurrentMenuItem = none) :
    (s.InitializeMenuItems Children).CurrentMenuItem =
      (match FirstFocusByDefault s Children with
        | some p => some p
        | none => (MenuItemsOf Children).head?) := by
  obtain ⟨-, h2, h3⟩ := InitializeMenuItems_loop (fun p => (s.Items p).FocusByDefault)
    Children (s, none) (fun _ => rfl)
  simp only [h] at h2 h3
  unfold UMenu.InitializeMenuItems FirstFocusByDefault
  cases hfind : (MenuItemsOf Children).find? (fun p => (s.Items p).FocusByDefault) with
  | none =>
    rw [hfind] at h2
    simp [h2, h3]
  | some p =>
    rw [hfind] at h2
    simp [h2]

/-- C1. Default menu item: on a menu whose `CurrentMenuItem` is null,
`NativeConstruct` makes current the first menu item in tree order that has
`FocusByDefault`; when no item has it, the first menu item in tree order; when
the tree has no menu item, `CurrentMenuItem` stays null. A non-null current
item is in the highlighted state afterwards. -/
theorem C1_default_menu_item (s : UMenu) (Children : List UWidget)
    (h : s.CurrentMenuItem = none) :
    (∀ p, FirstFocusByDefault s Children = some p →
        (s.NativeConstruct Children).CurrentMenuItem = some p) ∧
    (FirstFocusByDefault s Children = none →
        (s.NativeConstruct Children).CurrentMenuItem = (MenuItemsOf Children).head?) ∧
    (MenuItemsOf Children = [] → (s.NativeConstruct Children).CurrentMenuItem = none) ∧
    (∀ p, (s.NativeConstruct Children).CurrentMenuItem = some p →
        ((s.NativeConstruct Children).Items p).Highlighted = true) := by
  have hc := InitializeMenuItems_current s Children h
  have hnc : (s.NativeConstruct Children).CurrentMenuItem =
      (s.InitializeMenuItems Children).CurrentMenuItem := by
    unfold UMenu.NativeConstruct
    cases hcur : (s.InitializeMenuItems Children).CurrentMenuItem <;>
      simp [hcur, UMenu.SetHighlightedState, UMenu.ModifyItem]
  refine ⟨?_, ?_, ?_, ?_⟩
  · intro p hp
    rw [hnc, hc, hp]
  · intro hn
    rw [hnc, hc, hn]
  · intro he
    rw [hnc, hc]
    simp [FirstFocusByDefault, he]
  · intro p hp
    rw [hnc] at hp
    unfold UMenu.NativeConstruct
    simp [hp, UMenu.SetHighlightedState, UMenu.ModifyItem, UMenuItem.SetHighlightedState]

/-- C1 at `ExampleMenu`: item 2, the first with `FocusByDefault`, becomes
current and highlighted. -/
theorem C1_default_menu_item_witness :
    ExampleMenu.CurrentMenuItem = none ∧
    FirstFocusByDefault ExampleMenu ExampleTree = some 2 ∧
    (ExampleMenu.NativeConstruct ExampleTree).CurrentMenuItem = some 2 ∧
    ((ExampleMenu.NativeConstruct ExampleTree).Items 2).Highlighted = true :=
  ⟨rfl, by decide,
    (C1_default_menu_item ExampleMenu ExampleTree rfl).1 2 (by decide),
    (C1_default_menu_item ExampleMenu ExampleTree rfl).2.2.2 2 (by decide)⟩

/-- C2. `RequestHighlight` of a non-null item `m` other than the current one:
`m` becomes current and highlighted and the previously current item (if any) is
un-highlighted if and only if `m` is visible; when `m` is not visible the
current item and every highlight flag stay as they were. When `m` already is
the current item the call changes nothing. -/
theorem C2_request_highlight (s : UMenu) (m : Nat) :
    (s.CurrentMenuItem ≠ some m →
      ((((s.RequestHighlight (some m)).CurrentMenuItem = some m ∧
          ((s.RequestHighlight (some m)).Items m).Highlighted = true ∧
          (∀ c, s.CurrentMenuItem = some c →
            ((s.RequestHighlight (some m)).Items c).Highlighted = false)) ↔
        (s.Items m).Visible = true) ∧
      ((s.Items m).Visible = false →
        (s.RequestHighlight (some m)).CurrentMenuItem = s.CurrentMenuItem ∧
        ∀ q, ((s.RequestHighlight (some m)).Items q).Highlighted = (s.Items q).Highlighted))) ∧
    (s.CurrentMenuItem = some m → s.RequestHighlight (some m) = s) := by
  refine ⟨?_, ?_⟩
  · intro hne
    cases hv : (s.Items m).Visible with
    | false =>
      have hs : s.RequestHighlight (some m) = s := by
        simp [UMenu.RequestHighlight, UMenu.UpdateHighlightedItem, hne, hv]
      rw [hs]
      simp [hne]
    | true =>
      refine ⟨⟨fun _ => rfl, fun _ => ?_⟩, fun h => absurd h (by simp)⟩
      cases hcur : s.CurrentMenuItem with
      | none =>
        cases hsc : s.ScrollContainer <;>
          simp [UMenu.RequestHighlight, UMenu.UpdateHighlightedItem, UMenu.SetHighlightedState,
            UMenu.ModifyItem, UMenuItem.SetHighlightedState, hv, hcur, hsc]
      | some c =>
        have hcm : c ≠ m := fun h => hne (by rw [hcur, h])
        cases hsc : s.ScrollContainer <;>
          simp [UMenu.RequestHighlight, UMenu.UpdateHighlightedItem, UMenu.SetHighlightedState,
            UMenu.ModifyItem, UMenuItem.SetHighlightedState, hv, hcur, hsc, hcm]
  · intro h
    simp [UMenu.RequestHighlight, h]

/-- C2 at the constructed example menu (item 2 current): requesting the visible
item 1 moves the highlight from 2 to 1. -/
theorem C2_request_highlight_witness :
    ExampleConstructed.CurrentMenuItem ≠ some 1 ∧
    (ExampleConstructed.Items 1).Visible = true ∧
    (ExampleConstructed.RequestHighlight (some 1)).CurrentMenuItem = some 1 ∧
    ((ExampleConstructed.RequestHighlight (some 1)).Items 1).Highlighted = true ∧
    (∀ c, ExampleConstructed.CurrentMenuItem = some c →
      ((ExampleConstructed.RequestHighlight (some 1)).Items c).Highlighted = false) :=
  ⟨by decide, by decide,
    ((C2_request_highlight ExampleConstructed 1).1 (by decide)).1.2 (by decide)⟩

/-- C3. `RemoveHighlight(m)` with `m` the (non-null) current item: afterwards
there is no current item, `m` is un-highlighted and
`HighlightedMenuItemBeforeRemoval` is `m`. With `m` (null or not) different
from the current item the call leaves the current item, the remembered item and
every highlight flag as they were. -/
theorem C3_remove_highlight (s : UMenu) :
    (∀ m : Nat, s.CurrentMenuItem = some m →
      (s.RemoveHighlight (some m)).CurrentMenuItem = none ∧
      ((s.RemoveHighlight (some m)).Items m).Highlighted = false ∧
      (s.RemoveHighlight (some m)).HighlightedMenuItemBeforeRemoval = some m) ∧
    (∀ m : Option Nat, s.CurrentMenuItem ≠ m →
      (s.RemoveHighlight m).CurrentMenuItem = s.CurrentMenuItem ∧
      (s.RemoveHighlight m).HighlightedMenuItemBeforeRemoval =
        s.HighlightedMenuItemBeforeRemoval ∧
      ∀ q, ((s.RemoveHighlight m).Items q).Highlighted = (s.Items q).Highlighted) := by
  refine ⟨?_, ?_⟩
  · intro m hm
    simp [UMenu.RemoveHighlight, UMenu.UpdateHighlightedItem, UMenu.SetHighlightedState,
      UMenu.ModifyItem, UMenuItem.SetHighlightedState, hm]
  · intro m hm
    have hs : s.RemoveHighlight m = s := by simp [UMenu.RemoveHighlight, hm]
    rw [hs]
    simp

/-- C3 at the constructed example menu: removing the highlight of the current
item 2 clears the current item and remembers 2; removing it from item 1 changes
nothing. -/
theorem C3_remove_highlight_witness :
    ExampleConstructed.CurrentMenuItem = some 2 ∧
    ((ExampleConstructed.RemoveHighlight (some 2)).CurrentMenuItem = none ∧
      ((ExampleConstructed.RemoveHighlight (some 2)).Items 2).Highlighted = false ∧
      (ExampleConstructed.RemoveHighlight (some 2)).HighlightedMenuItemBeforeRemoval = some 2) ∧
    ExampleConstructed.CurrentMenuItem ≠ some 1 ∧
    (ExampleConstructed.RemoveHighlight (some 1)).CurrentMenuItem =
      ExampleConstructed.CurrentMenuItem :=
  ⟨by decide, (C3_remove_highlight ExampleConstructed).1 2 (by decide), by decide,
    ((C3_remove_highlight ExampleConstructed).2 (some 1) (by decide)).1⟩

/-- A press with a current item does not pass through the restoring branch of
`UpdateHighlightedItemBeforeNavigation`. -/
theorem UpdateHighlightedItemBeforeNavigation_current (s : UMenu) (c : Nat) (v : Bool)
    (h : s.CurrentMenuItem = some c) : s.UpdateHighlightedItemBeforeNavigation v = s := by
  simp [UMenu.UpdateHighlightedItemBeforeNavigation, h]

/-- With a current item `c`, a press is `UpdateHighlightedItem` on the
neighbour and the navigation mode of `c`, increasing for up and right. -/
theorem Press_current (s : UMenu) (d : EMenuDirection) (c : Nat)
    (h : s.CurrentMenuItem = some c) :
    s.Press d = s.UpdateHighlightedItem ((s.Items c).Neighbour d) ((s.Items c).Navigation d)
      (decide (d = EMenuDirection.Up ∨ d = EMenuDirection.Right)) false := by
  cases d <;>
    simp [UMenu.Press, UMenu.OnMenuUp, UMenu.OnMenuDown, UMenu.OnMenuLeft, UMenu.OnMenuRight,
      UpdateHighlightedItemBeforeNavigation_current s c _ h, h, UMenuItem.Neighbour,
      UMenuItem.Navigation]

/-- C4 (amended). With a current item `c` whose navigation mode on the axis is
`HighlightItem` and whose neighbour `n` in the pressed direction is non-null:
when `n` is visible the press makes `n` the current, highlighted item and, if
`n` is not `c` itself, un-highlights `c`; when `n` is not visible the press
changes nothing, so `c` stays current with its highlight. When the mode of `c`
on the axis is `Disabled`, or there is no current item and none remembered, the
press changes no menu state. -/
theorem C4_directional_navigation (s : UMenu) (d : EMenuDirection) :
    (∀ c n, s.CurrentMenuItem = some c →
      (s.Items c).Navigation d = EMenuNavigation.HighlightItem →
      (s.Items c).Neighbour d = some n →
      ((s.Items n).Visible = true →
        (s.Press d).CurrentMenuItem = some n ∧
        ((s.Press d).Items n).Highlighted = true ∧
        (n ≠ c → ((s.Press d).Items c).Highlighted = false)) ∧
      ((s.Items n).Visible = false → s.Press d = s)) ∧
    (∀ c, s.CurrentMenuItem = some c →
      (s.Items c).Navigation d = EMenuNavigation.Disabled → s.Press d = s) ∧
    (s.CurrentMenuItem = none → s.HighlightedMenuItemBeforeRemoval = none → s.Press d = s) := by
  refine ⟨?_, ?_, ?_⟩
  · intro c n hc hnav hn
    rw [Press_current s d c hc, hnav, hn]
    refine ⟨?_, ?_⟩
    · intro hv
      cases hsc : s.ScrollContainer <;>
        simp [UMenu.UpdateHighlightedItem, UMenu.SetHighlightedState, UMenu.ModifyItem,
          UMenuItem.SetHighlightedState, hv, hc, hsc] <;>
        intro hne <;> simp [Ne.symm hne]
    · intro hv
      simp [UMenu.UpdateHighlightedItem, hv]
  · intro c hc hnav
    rw [Press_current s d c hc, hnav]
    rfl
  · intro hc hr
    cases d <;>
      simp [UMenu.Press, UMenu.OnMenuUp, UMenu.OnMenuDown, UMenu.OnMenuLeft, UMenu.OnMenuRight,
        UMenu.UpdateHighlightedItemBeforeNavigation, UMenu.UpdateHighlightedItem, hc, hr]

/-- C4 (amended) at the constructed example menu: pressing up from item 2 moves
the highlight to the visible item 1; pressing down towards the hidden item 3
changes nothing. -/
theorem C4_directional_navigation_witness :
    ExampleConstructed.CurrentMenuItem = some 2 ∧
    (ExampleConstructed.Press EMenuDirection.Up).CurrentMenuItem = some 1 ∧
    ((ExampleConstructed.Press EMenuDirection.Up).Items 1).Highlighted = true ∧
    ((ExampleConstructed.Press EMenuDirection.Up).Items 2).Highlighted = false ∧
    ExampleConstructed.Press EMenuDirection.Down = ExampleConstructed :=
  ⟨by decide,
    (((C4_directional_navigation ExampleConstructed EMenuDirection.Up).1 2 1
      (by decide) (by decide) (by decide)).1 (by decide)).1,
    (((C4_directional_navigation ExampleConstructed EMenuDirection.Up).1 2 1
      (by decide) (by decide) (by decide)).1 (by decide)).2.1,
    (((C4_directional_navigation ExampleConstructed EMenuDirection.Up).1 2 1
      (by decide) (by decide) (by decide)).1 (by decide)).2.2 (by decide),
    ((C4_directional_navigation ExampleConstructed EMenuDirection.Down).1 2 3
      (by decide) (by decide) (by decide)).2 (by decide)⟩

/-- C4 as stated fails where an item is its own neighbour: in `SelfLinkMenu` the
current item 1 has mode `HighlightItem` and the visible upper neighbour 1, and
after `OnMenuUp` item 1, the item that was current, is not un-highlighted. -/
theorem C4_counterexample :
    SelfLinkMenu.CurrentMenuItem = some 1 ∧
    (SelfLinkMenu.Items 1).VerticalNavigation = EMenuNavigation.HighlightItem ∧
    (SelfLinkMenu.Items 1).MenuItemUp = some 1 ∧
    (SelfLinkMenu.Items 1).Visible = true ∧
    SelfLinkMenu.OnMenuUp.CurrentMenuItem = some 1 ∧
    (SelfLinkMenu.OnMenuUp.Items 1).Highlighted ≠ false := by
  decide

/-- With a current item `c` that updates its value by holding on the axis of
the direction, the hold handler is `UpdateHighlightedItem` in mode
`IncreaseDecreaseValue`; otherwise it returns at once. -/
theorem Hold_current (s : UMenu) (d : EMenuDirection) (c : Nat)
    (h : s.CurrentMenuItem = some c) :
    s.Hold d =
      if (s.Items c).ValueUpdateMethod = EMenuItemValueUpdateMethod.Hold ∧
          (s.Items c).Navigation d = EMenuNavigation.IncreaseDecreaseValue then
        s.UpdateHighlightedItem none EMenuNavigation.IncreaseDecreaseValue
          (decide (d = EMenuDirection.Up ∨ d = EMenuDirection.Right)) true
      else s := by
  cases d <;>
    by_cases h1 : (s.Items c).ValueUpdateMethod = EMenuItemValueUpdateMethod.Hold <;>
    simp [UMenu.Hold, UMenu.OnMenuUpHold, UMenu.OnMenuDownHold, UMenu.OnMenuLeftHold,
      UMenu.OnMenuRightHold, h, h1, UMenuItem.Navigation]

/-- C5 (amended). With a current item `c` whose navigation mode on the axis is
`IncreaseDecreaseValue`, exactly one of the press handler and the matching hold
handler calls `c.UpdateValue`, the other changes nothing: the press handler
with `IncrementSinglePress` when `ValueUpdateMethod` is not `Hold`, the hold
handler with `IncrementHold` when it is `Hold`. The delta is the increment
itself for up and right and its negation for down and left, hence positive
resp. negative whenever the increment is positive. The current item is
unchanged in every case. -/
theorem C5_value_adjustment (s : UMenu) (d : EMenuDirection) (c : Nat)
    (hc : s.CurrentMenuItem = some c)
    (hnav : (s.Items c).Navigation d = EMenuNavigation.IncreaseDecreaseValue) :
    ((s.Items c).ValueUpdateMethod ≠ EMenuItemValueUpdateMethod.Hold →
      (s.Press d).Calls =
        s.Calls ++ [MenuCall.UpdateValue c (d.Delta (s.Items c).IncrementSinglePress)] ∧
      s.Hold d = s) ∧
    ((s.Items c).ValueUpdateMethod = EMenuItemValueUpdateMethod.Hold →
      s.Press d = s ∧
      (s.Hold d).Calls =
        s.Calls ++ [MenuCall.UpdateValue c (d.Delta (s.Items c).IncrementHold)]) ∧
    (∀ Value : Int, 0 < Value →
      (d = EMenuDirection.Up ∨ d = EMenuDirection.Right → 0 < d.Delta Value) ∧
      (d = EMenuDirection.Down ∨ d = EMenuDirection.Left → d.Delta Value < 0)) ∧
    (s.Press d).CurrentMenuItem = some c ∧
    (s.Hold d).CurrentMenuItem = some c := by
  rw [Press_current s d c hc, Hold_current s d c hc, hnav]
  have key : ∀ (inc hold : Bool),
      (s.UpdateHighlightedItem ((s.Items c).Neighbour d) EMenuNavigation.IncreaseDecreaseValue
        inc hold).CurrentMenuItem = some c := by
    intro inc hold
    simp only [UMenu.UpdateHighlightedItem, hc, UMenu.UpdateValue]
    split_ifs <;> first | exact hc | rfl
  refine ⟨?_, ?_, ?_, key _ _, ?_⟩
  · intro hm
    cases d <;>
      simp [UMenu.UpdateHighlightedItem, UMenu.UpdateValue, hc, hm, EMenuDirection.Delta]
  · intro hm
    cases d <;>
      simp [UMenu.UpdateHighlightedItem, UMenu.UpdateValue, hc, hm, EMenuDirection.Delta]
  · intro Value hpos
    cases d <;> simp [EMenuDirection.Delta, hpos]
  · split_ifs
    · simp only [UMenu.UpdateHighlightedItem, hc, UMenu.UpdateValue]
      split_ifs <;> first | exact hc | rfl
    · exact hc

/-- C5 (amended) at the constructed example menu: item 2 changes its value on
the horizontal axis by single presses of 5, so pressing right calls
`UpdateValue` with 5, pressing left with -5, and holding changes nothing. -/
theorem C5_value_adjustment_witness :
    ExampleConstructed.CurrentMenuItem = some 2 ∧
    (ExampleConstructed.Press EMenuDirection.Left).Calls =
      ExampleConstructed.Calls ++ [MenuCall.UpdateValue 2 (-5)] ∧
    ExampleConstructed.Hold EMenuDirection.Left = ExampleConstructed :=
  ⟨by decide,
    (C5_value_adjustment ExampleConstructed EMenuDirection.Left 2 (by decide) (by decide)).1
      (by decide)⟩

/-- C5 as stated fails where the increment is not positive: in
`ZeroIncrementMenu` the current item 1 has mode `IncreaseDecreaseValue` on the
vertical axis, is not updated by holding, and `OnMenuUp` calls `UpdateValue`
with delta 0, which is not positive. -/
theorem C5_counterexample :
    ZeroIncrementMenu.CurrentMenuItem = some 1 ∧
    (ZeroIncrementMenu.Items 1).VerticalNavigation = EMenuNavigation.IncreaseDecreaseValue ∧
    (ZeroIncrementMenu.Items 1).ValueUpdateMethod ≠ EMenuItemValueUpdateMethod.Hold ∧
    ZeroIncrementMenu.OnMenuUp.Calls = [MenuCall.UpdateValue 1 0] ∧
    ¬ ((0 : Int) < 0) := by
  decide

/-- The highlight flags after `SetHighlightedState`. -/
theorem SetHighlightedState_Highlighted (s : UMenu) (p q : Nat) (b x y : Bool) :
    ((s.SetHighlightedState p b x y).Items q).Highlighted =
      if q = p then b else (s.Items q).Highlighted := by
  unfold UMenu.SetHighlightedState UMenu.ModifyItem UMenuItem.SetHighlightedState
  by_cases h : q = p <;> simp [h]

/-- `SetHighlightedState` does not change the visibility of any item. -/
theorem SetHighlightedState_Visible (s : UMenu) (p q : Nat) (b x y : Bool) :
    ((s.SetHighlightedState p b x y).Items q).Visible = (s.Items q).Visible := by
  unfold UMenu.SetHighlightedState UMenu.ModifyItem UMenuItem.SetHighlightedState
  by_cases h : q = p <;> simp [h]

/-- `SetHighlightedState` does not change the neighbours of any item. -/
theorem SetHighlightedState_Neighbour (s : UMenu) (p q : Nat) (b x y : Bool)
    (d : EMenuDirection) :
    ((s.SetHighlightedState p b x y).Items q).Neighbour d = (s.Items q).Neighbour d := by
  unfold UMenu.SetHighlightedState UMenu.ModifyItem UMenuItem.SetHighlightedState
  by_cases h : q = p <;> cases d <;> simp [h, UMenuItem.Neighbour]

/-- `SetHighlightedState` does not change the navigation modes of any item. -/
theorem SetHighlightedState_Navigation (s : UMenu) (p q : Nat) (b x y : Bool)
    (d : EMenuDirection) :
    ((s.SetHighlightedState p b x y).Items q).Navigation d = (s.Items q).Navigation d := by
  unfold UMenu.SetHighlightedState UMenu.ModifyItem UMenuItem.SetHighlightedState
  by_cases h : q = p <;> cases d <;> simp [h, UMenuItem.Navigation]

/-- `UpdateHighlightedItem` in mode `HighlightItem` towards a hidden item
changes nothing. -/
theorem UpdateHighlightedItem_hidden (s : UMenu) (n : Nat) (a b : Bool)
    (hv : (s.Items n).Visible = false) :
    s.UpdateHighlightedItem (some n) EMenuNavigation.HighlightItem a b = s := by
  simp [UMenu.UpdateHighlightedItem, hv]

/-- `SetHighlightedState` only writes into the heap of items. -/
theorem SetHighlightedState_fields (s : UMenu) (p : Nat) (b x y : Bool) :
    (s.SetHighlightedState p b x y).CurrentMenuItem = s.CurrentMenuItem ∧
    (s.SetHighlightedState p b x y).HighlightedMenuItemBeforeRemoval =
      s.HighlightedMenuItemBeforeRemoval ∧
    (s.SetHighlightedState p b x y).ScrollContainer = s.ScrollContainer ∧
    (s.SetHighlightedState p b x y).Calls = s.Calls ∧
    (s.SetHighlightedState p b x y).This = s.This :=
  ⟨rfl, rfl, rfl, rfl, rfl⟩

/-- `UpdateHighlightedItem` in mode `HighlightItem` towards null or a visible
item: the new item becomes current and highlighted, the old current item is
un-highlighted, the remembered item is kept. -/
theorem UpdateHighlightedItem_shown (s : UMenu) (NewItem : Option Nat) (a b : Bool)
    (hv : ∀ n, NewItem = some n → (s.Items n).Visible = true) :
    (s.UpdateHighlightedItem NewItem EMenuNavigation.HighlightItem a b).CurrentMenuItem
      = NewItem ∧
    (s.UpdateHighlightedItem NewItem EMenuNavigation.HighlightItem a b).HighlightedMenuItemBeforeRemoval
      = s.HighlightedMenuItemBeforeRemoval ∧
    ∀ q, ((s.UpdateHighlightedItem NewItem EMenuNavigation.HighlightItem a b).Items q).Highlighted =
      if some q = NewItem then true
      else if some q = s.CurrentMenuItem then false
      else (s.Items q).Highlighted := by
  cases NewItem with
  | none =>
    cases hc : s.CurrentMenuItem <;>
      simp [UMenu.UpdateHighlightedItem, hc, SetHighlightedState_Highlighted,
        (SetHighlightedState_fields _ _ _ _ _).1, (SetHighlightedState_fields _ _ _ _ _).2.1]
  | some n =>
    have hvn := hv n rfl
    cases hc : s.CurrentMenuItem <;> cases hsc : s.ScrollContainer <;>
      simp [UMenu.UpdateHighlightedItem, hc, hsc, hvn, SetHighlightedState_Highlighted,
        (SetHighlightedState_fields _ _ _ _ _).1, (SetHighlightedState_fields _ _ _ _ _).2.1,
        (SetHighlightedState_fields _ _ _ _ _).2.2.1]

/-- A press is `UpdateHighlightedItemBeforeNavigation` on the axis of the
direction followed by `UpdateHighlightedItem` on the neighbour and navigation
mode of the current item, if there is one. -/
theorem Press_eq (s : UMenu) (d : EMenuDirection) :
    s.Press d =
      match (s.UpdateHighlightedItemBeforeNavigation
          (decide (d = EMenuDirection.Up ∨ d = EMenuDirection.Down))).CurrentMenuItem with
      | none => s.UpdateHighlightedItemBeforeNavigation
          (decide (d = EMenuDirection.Up ∨ d = EMenuDirection.Down))
      | some c =>
        (s.UpdateHighlightedItemBeforeNavigation
          (decide (d = EMenuDirection.Up ∨ d = EMenuDirection.Down))).UpdateHighlightedItem
          (((s.UpdateHighlightedItemBeforeNavigation
            (decide (d = EMenuDirection.Up ∨ d = EMenuDirection.Down))).Items c).Neighbour d)
          (((s.UpdateHighlightedItemBeforeNavigation
            (decide (d = EMenuDirection.Up ∨ d = EMenuDirection.Down))).Items c).Navigation d)
          (decide (d = EMenuDirection.Up ∨ d = EMenuDirection.Right)) false := by
  cases d <;>
    simp only [UMenu.Press, UMenu.OnMenuUp, UMenu.OnMenuDown, UMenu.OnMenuLeft,
      UMenu.OnMenuRight] <;>
    split <;> simp_all [UMenu.UpdateHighlightedItem, UMenuItem.Neighbour, UMenuItem.Navigation]

/-- Without current item and with a remembered item `m` whose navigation mode
on the axis is `HighlightItem`, `UpdateHighlightedItemBeforeNavigation` makes
`m` current and highlighted again and forgets it. -/
theorem UpdateHighlightedItemBeforeNavigation_restore (s : UMenu) (d : EMenuDirection) (m : Nat)
    (hc : s.CurrentMenuItem = none) (hr : s.HighlightedMenuItemBeforeRemoval = some m)
    (hnav : (s.Items m).Navigation d = EMenuNavigation.HighlightItem) :
    s.UpdateHighlightedItemBeforeNavigation
        (decide (d = EMenuDirection.Up ∨ d = EMenuDirection.Down)) =
      { ({ s with CurrentMenuItem := some m }).SetHighlightedState m true false false with
        HighlightedMenuItemBeforeRemoval := none } := by
  cases d <;> simp only [UMenuItem.Navigation] at hnav <;>
    simp [UMenu.UpdateHighlightedItemBeforeNavigation, hc, hr, hnav]

/-- `RemoveHighlight` of the current item `m`, spelled out. -/
theorem RemoveHighlight_current (s : UMenu) (m : Nat) (hc : s.CurrentMenuItem = some m) :
    s.RemoveHighlight (some m) =
      { (s.SetHighlightedState m false false false) with
        CurrentMenuItem := none, HighlightedMenuItemBeforeRemoval := some m } := by
  simp [UMenu.RemoveHighlight, UMenu.UpdateHighlightedItem, hc, UMenu.SetHighlightedState,
    UMenu.ModifyItem]

/-- After `RemoveHighlight` of the current item `m`, whose navigation mode on
the axis is `HighlightItem`, a press first restores `m` as the current,
highlighted item (state `t`) and then navigates from it as it would have from
the original state. -/
theorem Press_after_RemoveHighlight (s : UMenu) (d : EMenuDirection) (m : Nat)
    (hc : s.CurrentMenuItem = some m)
    (hnav : (s.Items m).Navigation d = EMenuNavigation.HighlightItem) :
    ∃ t : UMenu,
      (s.RemoveHighlight (some m)).Press d =
        t.UpdateHighlightedItem ((s.Items m).Neighbour d) EMenuNavigation.HighlightItem
          (decide (d = EMenuDirection.Up ∨ d = EMenuDirection.Right)) false ∧
      t.CurrentMenuItem = some m ∧
      t.HighlightedMenuItemBeforeRemoval = none ∧
      (∀ q, (t.Items q).Visible = (s.Items q).Visible) ∧
      (∀ q, (t.Items q).Highlighted = if q = m then true else (s.Items q).Highlighted) := by
  have h1nav : ((s.RemoveHighlight (some m)).Items m).Navigation d =
      EMenuNavigation.HighlightItem := by
    rw [RemoveHighlight_current s m hc]
    exact (SetHighlightedState_Navigation s m m false false false d).trans hnav
  have hre := UpdateHighlightedItemBeforeNavigation_restore (s.RemoveHighlight (some m)) d m
    (by rw [RemoveHighlight_current s m hc]) (by rw [RemoveHighlight_current s m hc]) h1nav
  refine ⟨{ (({ s.RemoveHighlight (some m) with CurrentMenuItem := some m } :
      UMenu).SetHighlightedState m true false false) with
      HighlightedMenuItemBeforeRemoval := none }, ?_, ?_, ?_, ?_, ?_⟩
  · rw [Press_eq, hre]
    have e1 : ∀ q, (((({ s.RemoveHighlight (some m) with CurrentMenuItem := some m } :
        UMenu).SetHighlightedState m true false false).Items q).Neighbour d) =
        (s.Items q).Neighbour d := by
      intro q
      rw [SetHighlightedState_Neighbour, RemoveHighlight_current s m hc]
      exact SetHighlightedState_Neighbour s m q false false false d
    have e2 : ∀ q, (((({ s.RemoveHighlight (some m) with CurrentMenuItem := some m } :
        UMenu).SetHighlightedState m true false false).Items q).Navigation d) =
        (s.Items q).Navigation d := by
      intro q
      rw [SetHighlightedState_Navigation, RemoveHighlight_current s m hc]
      exact SetHighlightedState_Navigation s m q false false false d
    simp only [(SetHighlightedState_fields _ _ _ _ _).1, e1, e2, hnav]
  · rfl
  · rfl
  · intro q
    simp only [SetHighlightedState_Visible, RemoveHighlight_current s m hc]
  · intro q
    simp only [SetHighlightedState_Highlighted, RemoveHighlight_current s m hc]
    by_cases hq : q = m <;> simp [hq]

/-- In a state whose current item `m` has navigation mode `HighlightItem` on the
pressed axis and is highlighted (or whose neighbour in the pressed direction is
null or visible), `RemoveHighlight(m)` followed by the press ends with the same
current item and the same highlight flags as the press alone, and with no
remembered item. When the mode of `m` on the axis is not `HighlightItem`, the
press after `RemoveHighlight(m)` leaves the current item null and `m`
remembered. -/
theorem RemoveHighlight_then_Press (s : UMenu) (d : EMenuDirection) (m : Nat)
    (hc : s.CurrentMenuItem = some m) :
    ((s.Items m).Navigation d = EMenuNavigation.HighlightItem →
      ((s.Items m).Highlighted = true ∨
        ∀ n, (s.Items m).Neighbour d = some n → (s.Items n).Visible = true) →
      ((s.RemoveHighlight (some m)).Press d).CurrentMenuItem = (s.Press d).CurrentMenuItem ∧
      (∀ q, (((s.RemoveHighlight (some m)).Press d).Items q).Highlighted =
        ((s.Press d).Items q).Highlighted) ∧
      ((s.RemoveHighlight (some m)).Press d).HighlightedMenuItemBeforeRemoval = none) ∧
    ((s.Items m).Navigation d ≠ EMenuNavigation.HighlightItem →
      ((s.RemoveHighlight (some m)).Press d).CurrentMenuItem = none ∧
      ((s.RemoveHighlight (some m)).Press d).HighlightedMenuItemBeforeRemoval = some m) := by
  refine ⟨?_, ?_⟩
  · intro hnav hhl
    obtain ⟨t, hB, htc, htr, htv, hth⟩ := Press_after_RemoveHighlight s d m hc hnav
    rw [hB, Press_current s d m hc, hnav]
    by_cases hh : ∀ n, (s.Items m).Neighbour d = some n → (s.Items n).Visible = true
    · have hA := UpdateHighlightedItem_shown s ((s.Items m).Neighbour d)
        (decide (d = EMenuDirection.Up ∨ d = EMenuDirection.Right)) false hh
      have hB2 := UpdateHighlightedItem_shown t ((s.Items m).Neighbour d)
        (decide (d = EMenuDirection.Up ∨ d = EMenuDirection.Right)) false
        (fun n hn => (htv n).trans (hh n hn))
      refine ⟨hB2.1.trans hA.1.symm, fun q => ?_, hB2.2.1.trans htr⟩
      rw [hB2.2.2 q, hA.2.2 q, htc, hc, hth q]
      by_cases hq : q = m <;> simp [hq]
    · push_neg at hh
      obtain ⟨n, hn, hvn⟩ := hh
      have hvn2 : (s.Items n).Visible = false := by simpa using hvn
      have hm : (s.Items m).Highlighted = true := by
        rcases hhl with h | h
        · exact h
        · exact absurd (h n hn) hvn
      rw [hn, UpdateHighlightedItem_hidden s n _ _ hvn2,
        UpdateHighlightedItem_hidden t n _ _ ((htv n).trans hvn2)]
      refine ⟨htc.trans hc.symm, fun q => ?_, htr⟩
      rw [hth q]
      by_cases hq : q = m <;> simp [hq, hm]
  · intro hnav
    rw [RemoveHighlight_current s m hc]
    cases d <;>
      simp only [UMenuItem.Navigation] at hnav <;>
      simp [UMenu.Press, UMenu.OnMenuUp, UMenu.OnMenuDown, UMenu.OnMenuLeft, UMenu.OnMenuRight,
        UMenu.UpdateHighlightedItemBeforeNavigation, UMenu.UpdateHighlightedItem,
        UMenu.SetHighlightedState, UMenu.ModifyItem, UMenuItem.SetHighlightedState, hnav]

/-- `Jump` when the engine allows a regular jump, spelled out. -/
theorem Jump_regular (s : AUSKCharacter) :
    s.Jump true =
      { s with
        Calls := s.Calls ++ CharacterCall.SuperJump :: s.JumpEffects
        JumpMaxCount := if s.CanDoubleJump then 2 else 1
        IsDoubleJumping := s.CoyoteJumpPerformed || decide (s.JumpCurrentCount > 0) } := by
  cases hfx : s.JumpParticleFx <;>
    simp [AUSKCharacter.Jump, AUSKCharacter.JumpEffects, hfx]

/-- `Jump` when the engine refuses a regular jump and a coyote jump is
available, spelled out. -/
theorem Jump_coyote (s : AUSKCharacter) (h : s.CanPerformCoyoteJump = true) :
    s.Jump false =
      { s with
        Calls := s.Calls ++
          CharacterCall.LaunchCharacter ⟨0, 0, s.CoyoteJumpVelocity⟩ false true :: s.JumpEffects
        CoyoteJumpPerformed := true
        CanPerformCoyoteJump := false
        JumpMaxCount := if s.CanDoubleJump then 2 else 1
        IsDoubleJumping := false } := by
  cases hfx : s.JumpParticleFx <;>
    simp [AUSKCharacter.Jump, AUSKCharacter.JumpEffects, hfx, h]

/-- `Jump` when neither a regular nor a coyote jump is possible. -/
theorem Jump_none (s : AUSKCharacter) (h : s.CanPerformCoyoteJump = false) :
    s.Jump false = s := by
  simp [AUSKCharacter.Jump, h]

/-- C6. `Jump` changes nothing when `CanJump()` is false and no coyote jump is
available; it performs the engine's regular jump whenever `CanJump()` is true,
leaving `CanPerformCoyoteJump` and `CoyoteJumpPerformed` as they are; it
launches the character with velocity `(0, 0, CoyoteJumpVelocity)` exactly when
`CanJump()` is false and a coyote jump is available, after which
`CoyoteJumpPerformed` is true and `CanPerformCoyoteJump` is false. -/
theorem C6_jump (s : AUSKCharacter) (CanJump : Bool) :
    (CanJump = false → s.CanPerformCoyoteJump = false → s.Jump CanJump = s) ∧
    (CanJump = true →
      (s.Jump CanJump).Calls = s.Calls ++ CharacterCall.SuperJump :: s.JumpEffects ∧
      (s.Jump CanJump).CanPerformCoyoteJump = s.CanPerformCoyoteJump ∧
      (s.Jump CanJump).CoyoteJumpPerformed = s.CoyoteJumpPerformed) ∧
    (CanJump = false → s.CanPerformCoyoteJump = true →
      (s.Jump CanJump).Calls = s.Calls ++
        CharacterCall.LaunchCharacter ⟨0, 0, s.CoyoteJumpVelocity⟩ false true :: s.JumpEffects ∧
      (s.Jump CanJump).CoyoteJumpPerformed = true ∧
      (s.Jump CanJump).CanPerformCoyoteJump = false) ∧
    ((∃ v a b, CharacterCall.LaunchCharacter v a b ∈ (s.Jump CanJump).Calls.drop s.Calls.length) ↔
      (CanJump = false ∧ s.CanPerformCoyoteJump = true)) := by
  have hfx : ∀ v a b, CharacterCall.LaunchCharacter v a b ∉ s.JumpEffects := by
    intro v a b
    cases h : s.JumpParticleFx <;> simp [AUSKCharacter.JumpEffects, h]
  refine ⟨?_, ?_, ?_, ?_⟩
  · intro h1 h2
    subst h1
    exact Jump_none s h2
  · intro h1
    subst h1
    rw [Jump_regular]
    exact ⟨rfl, rfl, rfl⟩
  · intro h1 h2
    subst h1
    rw [Jump_coyote s h2]
    exact ⟨rfl, rfl, rfl⟩
  · cases CanJump with
    | true =>
      rw [Jump_regular]
      simp [hfx]
    | false =>
      cases h2 : s.CanPerformCoyoteJump with
      | false =>
        rw [Jump_none s h2]
        simp
      | true =>
        rw [Jump_coyote s h2]
        refine ⟨fun _ => ⟨rfl, rfl⟩, fun _ => ⟨⟨0, 0, s.CoyoteJumpVelocity⟩, false, true, ?_⟩⟩
        simp

/-- C6 at the example characters: on the ground without engine permission
nothing happens; falling off a ledge, `Jump` launches the character with
velocity `(0, 0, 600)` and uses up the coyote jump. -/
theorem C6_jump_witness :
    ExampleCharacter.Jump false = ExampleCharacter ∧
    ((ExampleFallingCharacter.Jump false).Calls = ExampleFallingCharacter.Calls ++
        CharacterCall.LaunchCharacter ⟨0, 0, ExampleFallingCharacter.CoyoteJumpVelocity⟩ false true
          :: ExampleFallingCharacter.JumpEffects ∧
      (ExampleFallingCharacter.Jump false).CoyoteJumpPerformed = true ∧
      (ExampleFallingCharacter.Jump false).CanPerformCoyoteJump = false) :=
  ⟨(C6_jump ExampleCharacter false).1 rfl rfl,
    (C6_jump ExampleFallingCharacter false).2.2.1 rfl (by decide)⟩

/-- C7. `OnHit` does nothing when `OtherActor` is the projectile itself.
Otherwise the projectile is destroyed, and before that an impulse of the
projectile's velocity times 100 is applied to `OtherComponent` at the
projectile's location if and only if `OtherActor` is valid and
`OtherComponent` is valid and simulating physics. -/
theorem C7_projectile_hit (s : AWeaponProjectile) (OtherActor : Option UObjectRef)
    (OtherComponent : Option UPrimitiveComponentRef) :
    (OtherActor.map UObjectRef.Addr = some s.This → s.OnHit OtherActor OtherComponent = s) ∧
    (OtherActor.map UObjectRef.Addr ≠ some s.This →
      (∀ c, OtherComponent = some c → IsValid OtherActor = true → c.Valid = true →
        c.SimulatingPhysics = true →
        (s.OnHit OtherActor OtherComponent).Calls = s.Calls ++
          [ProjectileCall.AddImpulseAtLocation c.Addr (s.Velocity.Scale 100) s.ActorLocation,
           ProjectileCall.Destroy]) ∧
      (¬ (IsValid OtherActor = true ∧
          ∃ c, OtherComponent = some c ∧ c.Valid = true ∧ c.SimulatingPhysics = true) →
        (s.OnHit OtherActor OtherComponent).Calls = s.Calls ++ [ProjectileCall.Destroy])) := by
  refine ⟨?_, ?_⟩
  · intro h
    simp [AWeaponProjectile.OnHit, h]
  · intro h
    refine ⟨?_, ?_⟩
    · intro c hc hv hcv hcs
      simp [AWeaponProjectile.OnHit, h, hc, hv, hcv, hcs]
    · intro hn
      cases OtherComponent with
      | none => simp [AWeaponProjectile.OnHit, h]
      | some c =>
        have : (IsValid OtherActor && c.Valid && c.SimulatingPhysics) = false := by
          cases h1 : IsValid OtherActor <;> cases h2 : c.Valid <;>
            cases h3 : c.SimulatingPhysics <;> simp_all
        simp [AWeaponProjectile.OnHit, h, this]

/-- C7 at `ExampleProjectile` hitting a valid actor at address 8 through a
valid component at address 9 that simulates physics: the component receives the
impulse `(300000, 0, 0)` and the projectile is destroyed. -/
theorem C7_projectile_hit_witness :
    (ExampleProjectile.OnHit (some ⟨8, true⟩) (some ⟨9, true, true⟩)).Calls =
      ExampleProjectile.Calls ++
        [ProjectileCall.AddImpulseAtLocation 9 (ExampleProjectile.Velocity.Scale 100)
          ExampleProjectile.ActorLocation, ProjectileCall.Destroy] ∧
    ExampleProjectile.Velocity.Scale 100 = ⟨300000, 0, 0⟩ :=
  ⟨((C7_projectile_hit ExampleProjectile (some ⟨8, true⟩) (some ⟨9, true, true⟩)).2
      (by decide)).1 ⟨9, true, true⟩ rfl rfl rfl rfl, by decide⟩

/-- `Fire` returns at once, without any call, when the weapon's character is
invalid or its controller is invalid. -/
theorem Fire_without_owner (R : FRotator → FVector → FVector) (w : AWeapon)
    (h : ∀ c, w.Character = some c → c.Valid = true →
      ∀ k, c.Controller = some k → k.Valid = false) :
    w.Fire R = some w := by
  unfold AWeapon.Fire
  cases hc : w.Character with
  | none => rfl
  | some c =>
    cases hv : c.Valid with
    | false => simp [hv]
    | true =>
      cases hk : c.Controller with
      | none => simp [hk]
      | some k => simp [hk, h c hc hv k hk]

/-- `Fire` of a weapon whose valid character is possessed by a valid player
controller with a camera manager: a projectile is spawned and `FireSound`
played exactly when `ProjectileClass` is valid, then `FireAnimation` is played
exactly when it is valid. -/
theorem Fire_with_player_camera (R : FRotator → FVector → FVector) (w : AWeapon)
    (c : AUSKCharacterRef) (k : AControllerRef) (Rotation : FRotator)
    (hc : w.Character = some c) (hv : c.Valid = true) (hk : c.Controller = some k)
    (hkv : k.Valid = true) (hp : k.IsPlayerController = true)
    (hm : k.PlayerCameraManager = some Rotation) :
    ∃ w1, w.Fire R = some w1 ∧
      w1.Calls = w.Calls ++
        (match w.ProjectileClass with
          | some cls =>
            if cls.Valid = true then
              [WeaponCall.SpawnActor cls.Addr (w.ActorLocation.Add (R Rotation w.MuzzleOffset))
                Rotation, WeaponCall.PlaySound c.Addr w.FireSound]
            else []
          | none => []) ++
        (match w.FireAnimation with
          | some anim => if anim.Valid = true then [WeaponCall.PlayAnimMontage c.Addr anim.Addr]
                         else []
          | none => []) := by
  cases hcls : w.ProjectileClass with
  | none =>
    cases hanim : w.FireAnimation with
    | none =>
      simp [AWeapon.Fire, AWeapon.SpawnProjectile, AWeapon.PlayFireAnimation, hc, hv, hk, hkv,
        hcls, hanim]
    | some anim =>
      cases ha : anim.Valid <;>
        simp [AWeapon.Fire, AWeapon.SpawnProjectile, AWeapon.PlayFireAnimation, hc, hv, hk, hkv,
          hcls, hanim, ha]
  | some cls =>
    cases hclsv : cls.Valid <;> cases hanim : w.FireAnimation with
    | none =>
      simp [AWeapon.Fire, AWeapon.SpawnProjectile, AWeapon.PlayFireAnimation, hc, hv, hk, hkv,
        hp, hm, hcls, hclsv, hanim]
    | some anim =>
      cases ha : anim.Valid <;>
        simp [AWeapon.Fire, AWeapon.SpawnProjectile, AWeapon.PlayFireAnimation, hc, hv, hk, hkv,
          hp, hm, hcls, hclsv, hanim, ha]

/-- After `AttachWeapon` with an invalid target, `Fire` has no effect. -/
theorem Fire_after_invalid_attach (R : FRotator → FVector → FVector) (w : AWeapon)
    (Target : Option AUSKCharacterRef) (h : ∀ c, Target = some c → c.Valid = false) :
    w.AttachWeapon Target = { w with Character := Target } ∧
    (w.AttachWeapon Target).Fire R = some (w.AttachWeapon Target) := by
  cases Target with
  | none => exact ⟨rfl, rfl⟩
  | some c =>
    have hv := h c rfl
    have ha : w.AttachWeapon (some c) = { w with Character := some c } := by
      simp [AWeapon.AttachWeapon, hv]
    refine ⟨ha, ?_⟩
    rw [ha]
    simp [AWeapon.Fire, hv]

/-- C8 (the code at the failing input). `ExampleAIWeapon` has a valid character
with a valid controller and a valid projectile class, so `Fire` passes its
guard; the controller is not a player controller, so in `SpawnProjectile` the
`dynamic_cast` yields null and the unchecked `PlayerController->PlayerCameraManager`
dereferences it: no projectile is spawned. With a player controller that has a
camera manager the same weapon spawns the projectile, plays the sound and the
animation. -/
theorem C8_fire_unchecked_player_controller :
    (∃ c k, ExampleAIWeapon.Character = some c ∧ c.Valid = true ∧
      c.Controller = some k ∧ k.Valid = true) ∧
    IsValid ExampleAIWeapon.ProjectileClass = true ∧
    ExampleAIWeapon.Fire ExampleRotateVector = none ∧
    (ExamplePlayerWeapon.Fire ExampleRotateVector).map AWeapon.Calls =
      some [WeaponCall.SpawnActor 2 ⟨101, 2, 13⟩ ⟨0, 90, 0⟩, WeaponCall.PlaySound 1 (some 3),
        WeaponCall.PlayAnimMontage 1 4] := by
  refine ⟨⟨_, _, rfl, rfl, rfl, rfl⟩, ?_, ?_, ?_⟩ <;> decide

/-- One event other than `Landed` sets `CoyoteJumpPerformed` exactly when it is
a coyote jump, and never clears it. -/
theorem Step_CoyoteJumpPerformed (s : AUSKCharacter) (e : CharacterEvent)
    (h : IsLanded e = false) :
    (s.Step e).CoyoteJumpPerformed = (s.CoyoteJumpPerformed || IsCoyoteJump s e) := by
  cases e with
  | Jump CanJump =>
    cases CanJump with
    | true => simp [AUSKCharacter.Step, Jump_regular, IsCoyoteJump]
    | false =>
      cases hc : s.CanPerformCoyoteJump with
      | false => simp [AUSKCharacter.Step, Jump_none s hc, IsCoyoteJump, hc]
      | true => simp [AUSKCharacter.Step, Jump_coyote s hc, IsCoyoteJump, hc]
  | Landed hit => simp [IsLanded] at h
  | MovementModeChanged f =>
    cases f <;> simp [AUSKCharacter.Step, AUSKCharacter.OnMovementModeChanged, IsCoyoteJump]
  | ResetCoyoteJump => simp [AUSKCharacter.Step, AUSKCharacter.ResetCoyoteJump, IsCoyoteJump]
  | EngineSetsJumpCurrentCount n => simp [AUSKCharacter.Step, IsCoyoteJump]

/-- Over events without `Landed`, `CoyoteJumpPerformed` ends true exactly when
it was true before or a coyote jump was performed on the way. -/
theorem Run_CoyoteJumpPerformed (es : List CharacterEvent) :
    ∀ s : AUSKCharacter, (∀ e ∈ es, IsLanded e = false) →
      (s.Run es).CoyoteJumpPerformed = (s.CoyoteJumpPerformed || CoyoteJumpDuring s es) := by
  induction es with
  | nil =>
    intro s _
    simp [AUSKCharacter.Run, CoyoteJumpDuring]
  | cons e es ih =>
    intro s h
    have he : IsLanded e = false := h e (List.mem_cons_self e es)
    have hes : ∀ x ∈ es, IsLanded x = false := fun x hx => h x (List.mem_cons_of_mem e hx)
    have := ih (s.Step e) hes
    simp only [AUSKCharacter.Run, List.foldl_cons] at this ⊢
    rw [this, Step_CoyoteJumpPerformed s e he]
    simp [CoyoteJumpDuring, Bool.or_assoc]

/-- `Landed` resets `JumpMaxCount` to 1 and `CoyoteJumpPerformed` to false. -/
theorem Landed_resets (s : AUSKCharacter) (hit : FVector) :
    (s.Landed hit).JumpMaxCount = 1 ∧ (s.Landed hit).CoyoteJumpPerformed = false := by
  cases h : s.LandParticleFx <;> simp [AUSKCharacter.Landed, h]

/-- C10 (amended). After a `Jump` that jumps, `JumpMaxCount` is 2 if
`CanDoubleJump` is set and 1 otherwise, and `IsDoubleJumping` is true exactly
when the jump was a regular jump and `CoyoteJumpPerformed` was set or
`JumpCurrentCount > 0`; a coyote jump is never flagged. `Landed` resets
`JumpMaxCount` to 1 and `CoyoteJumpPerformed` to false, and after the events
`es` that follow the last `Landed` the flag `CoyoteJumpPerformed` tells whether
a coyote jump was performed among them. Hence a regular jump after `Landed`
with `JumpCurrentCount = 0` is not flagged as a double jump provided no coyote
jump was performed since that `Landed`, and is flagged if one was. -/
theorem C10_double_jump_flags (s : AUSKCharacter) (CanJump : Bool) :
    ((CanJump = true ∨ s.CanPerformCoyoteJump = true) →
      (s.Jump CanJump).JumpMaxCount = (if s.CanDoubleJump then 2 else 1) ∧
      ((s.Jump CanJump).IsDoubleJumping = true ↔
        CanJump = true ∧ (s.CoyoteJumpPerformed = true ∨ 0 < s.JumpCurrentCount))) ∧
    (CanJump = false → s.CanPerformCoyoteJump = true →
      (s.Jump CanJump).IsDoubleJumping = false) ∧
    (∀ hit, (s.Landed hit).JumpMaxCount = 1 ∧ (s.Landed hit).CoyoteJumpPerformed = false) ∧
    (∀ hit es, (∀ e ∈ es, IsLanded e = false) →
      ((s.Landed hit).Run es).CoyoteJumpPerformed = CoyoteJumpDuring (s.Landed hit) es) ∧
    (∀ hit es, (∀ e ∈ es, IsLanded e = false) →
      ((s.Landed hit).Run es).JumpCurrentCount = 0 →
      ((((s.Landed hit).Run es).Jump true).IsDoubleJumping = true ↔
        CoyoteJumpDuring (s.Landed hit) es = true)) := by
  have hrun : ∀ hit es, (∀ e ∈ es, IsLanded e = false) →
      ((s.Landed hit).Run es).CoyoteJumpPerformed = CoyoteJumpDuring (s.Landed hit) es := by
    intro hit es hes
    rw [Run_CoyoteJumpPerformed es (s.Landed hit) hes, (Landed_resets s hit).2]
    simp
  refine ⟨?_, ?_, Landed_resets s, hrun, ?_⟩
  · intro h
    cases CanJump with
    | true =>
      rw [Jump_regular]
      simp
    | false =>
      have hc : s.CanPerformCoyoteJump = true := by simpa using h
      rw [Jump_coyote s hc]
      simp
  · intro h1 hc
    subst h1
    rw [Jump_coyote s hc]
  · intro hit es hes h0
    rw [Jump_regular, ← hrun hit es hes]
    simp [h0]

/-- C10 (amended) at the example character: falling off a ledge, the coyote
jump sets `JumpMaxCount` to 2 and is not flagged as a double jump. -/
theorem C10_double_jump_flags_witness :
    ExampleFallingCharacter.CanPerformCoyoteJump = true ∧
    (ExampleFallingCharacter.Jump false).JumpMaxCount =
      (if ExampleFallingCharacter.CanDoubleJump then 2 else 1) ∧
    (ExampleFallingCharacter.Jump false).IsDoubleJumping = false :=
  ⟨by decide,
    ((C10_double_jump_flags ExampleFallingCharacter false).1 (Or.inr (by decide))).1,
    (C10_double_jump_flags ExampleFallingCharacter false).2.1 rfl (by decide)⟩

/-- C10 as stated fails after a coyote jump: the character lands, walks off a
ledge and performs a coyote jump (`ExampleCoyoteTrace`, without `Landed` and
without regular jump); `JumpCurrentCount` is still 0, and the regular jump that
follows, the first one after `Landed`, is flagged as a double jump. -/
theorem C10_counterexample :
    (∀ e ∈ ExampleCoyoteTrace, IsLanded e = false ∧ IsRegularJump e = false) ∧
    ((ExampleCharacter.Landed ⟨0, 0, 0⟩).Run ExampleCoyoteTrace).JumpCurrentCount = 0 ∧
    (((ExampleCharacter.Landed ⟨0, 0, 0⟩).Run ExampleCoyoteTrace).Jump true).IsDoubleJumping
      = true := by
  decide

/-- `Fire` dereferences a null pointer exactly when it passes its guard with a
valid projectile class and the controller is not a player controller or has no
camera manager. -/
theorem Fire_null_dereference_iff (R : FRotator → FVector → FVector) (w : AWeapon) :
    w.Fire R = none ↔
      ∃ c k cls, w.Character = some c ∧ c.Valid = true ∧ c.Controller = some k ∧
        k.Valid = true ∧ w.ProjectileClass = some cls ∧ cls.Valid = true ∧
        (k.IsPlayerController = false ∨ k.PlayerCameraManager = none) := by
  unfold AWeapon.Fire
  cases hc : w.Character with
  | none => simp
  | some c =>
    cases hv : c.Valid with
    | false => simp [hv]
    | true =>
      cases hk : c.Controller with
      | none => simp [hk]
      | some k =>
        cases hkv : k.Valid with
        | false => simp [hk, hkv]
        | true =>
          cases hcls : w.ProjectileClass with
          | none => simp [hv, hk, hkv, AWeapon.SpawnProjectile, hcls]
          | some cls =>
            cases hclsv : cls.Valid with
            | false => simp [hv, hk, hkv, AWeapon.SpawnProjectile, hcls, hclsv]
            | true =>
              cases hp : k.IsPlayerController with
              | false => simp [hv, hk, hkv, AWeapon.SpawnProjectile, hcls, hclsv, hp]
              | true =>
                cases hm : k.PlayerCameraManager <;>
                  simp [hv, hk, hkv, AWeapon.SpawnProjectile, hcls, hclsv, hp, hm]

/-- C11 (the code at the failing inputs). `ExampleNoCameraWeapon` has a valid
character, a valid player controller and a valid projectile class, but the
controller's `PlayerCameraManager` is null: `SpawnProjectile` calls
`GetCameraRotation()` through it without a check, a null dereference. The same
happens one step earlier with `ExampleAIWeapon`, whose controller is not a
player controller, through the unchecked result of the `dynamic_cast`. -/
theorem C11_fire_null_dereference :
    (∃ c k, ExampleNoCameraWeapon.Character = some c ∧ c.Valid = true ∧
      c.Controller = some k ∧ k.Valid = true ∧ k.IsPlayerController = true ∧
      k.PlayerCameraManager = none) ∧
    IsValid ExampleNoCameraWeapon.ProjectileClass = true ∧
    ExampleNoCameraWeapon.Fire ExampleRotateVector = none ∧
    (∃ c k, ExampleAIWeapon.Character = some c ∧ c.Valid = true ∧
      c.Controller = some k ∧ k.Valid = true ∧ k.IsPlayerController = false) ∧
    ExampleAIWeapon.Fire ExampleRotateVector = none := by
  refine ⟨⟨_, _, rfl, rfl, rfl, rfl, rfl, rfl⟩, ?_, ?_, ⟨_, _, rfl, rfl, rfl, rfl, rfl⟩, ?_⟩ <;>
    decide

/-- `InitializeActionBindings` on a menu whose bindings are not initialized yet,
with a pawn that has an enhanced input component: the ten bindings made. -/
theorem InitializeActionBindings_fresh (s : UMenuBindings) (p : APawnRef)
    (hs : s.bIsActionBindingsInitialized = false) (hp : p.EnhancedInputComponent = true) :
    ∃ s1, s.InitializeActionBindings (some p) = some s1 ∧
      s1.bIsActionBindingsInitialized = true ∧
      (∀ h : EMenuHandler, h.IsHold = false →
        (⟨h.OwnAction, ETriggerEvent.Started, h⟩ : ActionBinding) ∈ s1.Bindings) ∧
      (⟨.MenuLeftInputAction, .Triggered, .OnMenuLeftHold⟩ : ActionBinding) ∈ s1.Bindings ∧
      (⟨.MenuRightInputAction, .Triggered, .OnMenuRightHold⟩ : ActionBinding) ∈ s1.Bindings ∧
      (⟨.MenuUpInputAction, .Started, .OnMenuUpHold⟩ : ActionBinding) ∈ s1.Bindings ∧
      (⟨.MenuDownInputAction, .Started, .OnMenuDownHold⟩ : ActionBinding) ∈ s1.Bindings := by
  simp only [UMenuBindings.InitializeActionBindings, hs, hp, Bool.false_eq_true, if_false,
    Bool.true_eq_false]
  refine ⟨_, rfl, rfl, ?_, ?_, ?_, ?_, ?_⟩
  · intro h hh
    cases h <;> simp [EMenuHandler.IsHold] at hh <;> simp [EMenuHandler.OwnAction]
  all_goals simp

/-- C12 (the code at the failing input). On a menu whose bindings are not
initialized yet, with a pawn that has an enhanced input component,
`InitializeActionBindings` binds `OnMenuUpHold` and `OnMenuDownHold` to the
`Started` event of their actions and makes no binding of them to `Triggered`,
while `OnMenuLeftHold` and `OnMenuRightHold` are bound to `Triggered`: two of
the four hold handlers do not get the trigger event the specification gives
them. -/
theorem C12_hold_bindings :
    ∃ s1, ExampleBindings.InitializeActionBindings (some ExamplePawn) = some s1 ∧
      (⟨.MenuUpInputAction, .Started, .OnMenuUpHold⟩ : ActionBinding) ∈ s1.Bindings ∧
      (⟨.MenuDownInputAction, .Started, .OnMenuDownHold⟩ : ActionBinding) ∈ s1.Bindings ∧
      (∀ a, (⟨a, EMenuHandler.OnMenuUpHold.SpecifiedTriggerEvent, .OnMenuUpHold⟩ :
        ActionBinding) ∉ s1.Bindings) ∧
      (∀ a, (⟨a, EMenuHandler.OnMenuDownHold.SpecifiedTriggerEvent, .OnMenuDownHold⟩ :
        ActionBinding) ∉ s1.Bindings) ∧
      (⟨.MenuLeftInputAction, EMenuHandler.OnMenuLeftHold.SpecifiedTriggerEvent,
        .OnMenuLeftHold⟩ : ActionBinding) ∈ s1.Bindings ∧
      (⟨.MenuRightInputAction, EMenuHandler.OnMenuRightHold.SpecifiedTriggerEvent,
        .OnMenuRightHold⟩ : ActionBinding) ∈ s1.Bindings := by
  refine ⟨_, rfl, by decide, by decide, ?_, ?_, by decide, by decide⟩
  · intro a
    cases a <;> decide
  · intro a
    cases a <;> decide

/-- `UpdateHighlightedItem` keeps, for every item `q`, the agreement between
the highlight flag of `q` and `q` being the current item. -/
theorem UpdateHighlightedItem_agreement (s : UMenu) (NewItem : Option Nat)
    (nav : EMenuNavigation) (a b : Bool) (q : Nat)
    (h : (s.Items q).Highlighted = true ↔ s.CurrentMenuItem = some q) :
    ((s.UpdateHighlightedItem NewItem nav a b).Items q).Highlighted = true ↔
      (s.UpdateHighlightedItem NewItem nav a b).CurrentMenuItem = some q := by
  cases nav with
  | Disabled => exact h
  | IncreaseDecreaseValue =>
    have hs : (s.UpdateHighlightedItem NewItem EMenuNavigation.IncreaseDecreaseValue a b).Items
          = s.Items ∧
        (s.UpdateHighlightedItem NewItem EMenuNavigation.IncreaseDecreaseValue a b).CurrentMenuItem
          = s.CurrentMenuItem := by
      simp only [UMenu.UpdateHighlightedItem, UMenu.UpdateValue]
      split
      · exact ⟨rfl, rfl⟩
      · split_ifs <;> exact ⟨rfl, rfl⟩
    rw [hs.1, hs.2]
    exact h
  | HighlightItem =>
    by_cases hh : ∀ n, NewItem = some n → (s.Items n).Visible = true
    · obtain ⟨h1, -, h3⟩ := UpdateHighlightedItem_shown s NewItem a b hh
      rw [h1, h3 q]
      by_cases hq : some q = NewItem
      · rw [if_pos hq]
        exact ⟨fun _ => hq.symm, fun _ => rfl⟩
      · by_cases hq2 : some q = s.CurrentMenuItem
        · rw [if_neg hq, if_pos hq2]
          exact ⟨fun hx => Bool.noConfusion hx, fun hx => absurd hx.symm hq⟩
        · have hf : (s.Items q).Highlighted = false := by
            cases hfl : (s.Items q).Highlighted with
            | false => rfl
            | true => exact absurd (h.1 hfl).symm hq2
          rw [if_neg hq, if_neg hq2, hf]
          exact ⟨fun hx => Bool.noConfusion hx, fun hx => absurd hx.symm hq⟩
    · push_neg at hh
      obtain ⟨n, hn, hvn⟩ := hh
      have hvn2 : (s.Items n).Visible = false := by simpa using hvn
      rw [hn, UpdateHighlightedItem_hidden s n a b hvn2]
      exact h

/-- `UpdateHighlightedItemBeforeNavigation` keeps the agreement between
highlight flag and current item. -/
theorem UpdateHighlightedItemBeforeNavigation_agreement (s : UMenu) (v : Bool) (q : Nat)
    (h : (s.Items q).Highlighted = true ↔ s.CurrentMenuItem = some q) :
    ((s.UpdateHighlightedItemBeforeNavigation v).Items q).Highlighted = true ↔
      (s.UpdateHighlightedItemBeforeNavigation v).CurrentMenuItem = some q := by
  unfold UMenu.UpdateHighlightedItemBeforeNavigation
  cases hc : s.CurrentMenuItem with
  | some c => simpa [hc] using h
  | none =>
    cases hr : s.HighlightedMenuItemBeforeRemoval with
    | none => simpa [hc] using h
    | some m =>
      have hf : (s.Items q).Highlighted = false := by
        cases hfl : (s.Items q).Highlighted with
        | false => rfl
        | true =>
          have := h.1 hfl
          rw [hc] at this
          exact absurd this (by simp)
      simp only []
      split_ifs <;>
        first
        | exact h
        | (simp only [SetHighlightedState_Highlighted, (SetHighlightedState_fields _ _ _ _ _).1]
           by_cases hq : q = m
           · simp [hq]
           · simp [hq, hf, Ne.symm hq])

/-- Every handler call keeps the agreement between highlight flag and current
item. -/
theorem Step_agreement (s : UMenu) (e : MenuEvent) (q : Nat)
    (h : (s.Items q).Highlighted = true ↔ s.CurrentMenuItem = some q) :
    ((s.Step e).Items q).Highlighted = true ↔ (s.Step e).CurrentMenuItem = some q := by
  cases e with
  | Press d =>
    simp only [UMenu.Step]
    rw [Press_eq]
    have h1 := UpdateHighlightedItemBeforeNavigation_agreement s
      (decide (d = EMenuDirection.Up ∨ d = EMenuDirection.Down)) q h
    split
    · exact h1
    · exact UpdateHighlightedItem_agreement _ _ _ _ _ q h1
  | Hold d =>
    simp only [UMenu.Step]
    cases hc : s.CurrentMenuItem with
    | none =>
      have : s.Hold d = s := by
        cases d <;>
          simp [UMenu.Hold, UMenu.OnMenuUpHold, UMenu.OnMenuDownHold, UMenu.OnMenuLeftHold,
            UMenu.OnMenuRightHold, hc]
      rw [this]
      exact h
    | some c =>
      rw [Hold_current s d c hc]
      split_ifs
      · exact UpdateHighlightedItem_agreement _ _ _ _ _ q h
      · exact h
  | Selected =>
    simp only [UMenu.Step, UMenu.OnMenuSelected]
    split
    · exact h
    · split_ifs <;> exact h
  | RequestHighlight m =>
    simp only [UMenu.Step, UMenu.RequestHighlight]
    split_ifs
    · exact h
    · exact UpdateHighlightedItem_agreement _ _ _ _ _ q h
  | RemoveHighlight m =>
    simp only [UMenu.Step, UMenu.RemoveHighlight]
    split_ifs
    · exact h
    · exact UpdateHighlightedItem_agreement
        { s with HighlightedMenuItemBeforeRemoval := s.CurrentMenuItem } _ _ _ _ q h

/-- Every sequence of handler calls keeps the agreement between highlight flag
and current item. -/
theorem Run_agreement (es : List MenuEvent) (q : Nat) :
    ∀ s : UMenu, ((s.Items q).Highlighted = true ↔ s.CurrentMenuItem = some q) →
      (((s.Run es).Items q).Highlighted = true ↔ (s.Run es).CurrentMenuItem = some q) := by
  induction es with
  | nil => exact fun s h => h
  | cons e es ih =>
    intro s h
    simpa [UMenu.Run] using ih (s.Step e) (Step_agreement s e q h)

/-- The loop of `InitializeMenuItems` does not change any highlight flag. -/
theorem InitializeMenuItems_loop_Highlighted (q : Nat) (l : List UWidget) :
    ∀ acc : UMenu × Option Nat,
      ((l.foldl InitializeMenuItemsStep acc).1.Items q).Highlighted =
        (acc.1.Items q).Highlighted := by
  induction l with
  | nil => exact fun _ => rfl
  | cons w l ih =>
    intro acc
    rw [List.foldl_cons, ih]
    cases w with
    | Other => rfl
    | MenuItem p =>
      simp only [InitializeMenuItemsStep, UWidget.AsMenuItem, UMenu.ModifyItem]
      split_ifs <;> (by_cases hq : q = p <;> simp [hq])

/-- After `NativeConstruct` an item that was not highlighted before is
highlighted exactly when it is the current item. -/
theorem NativeConstruct_agreement (s : UMenu) (Children : List UWidget) (q : Nat)
    (h : (s.Items q).Highlighted = false) :
    ((s.NativeConstruct Children).Items q).Highlighted = true ↔
      (s.NativeConstruct Children).CurrentMenuItem = some q := by
  have hi : ((s.InitializeMenuItems Children).Items q).Highlighted = false := by
    unfold UMenu.InitializeMenuItems
    simp only []
    split_ifs <;> exact (InitializeMenuItems_loop_Highlighted q Children (s, none)).trans h
  unfold UMenu.NativeConstruct
  cases hc : (s.InitializeMenuItems Children).CurrentMenuItem with
  | none => simp [hc, hi]
  | some c =>
    simp only [hc, SetHighlightedState_Highlighted, (SetHighlightedState_fields _ _ _ _ _).1]
    by_cases hq : q = c
    · simp [hq]
    · simp [hq, hi, Ne.symm hq]

/-- C13. Single-highlight invariant: after `NativeConstruct` on a tree in which
no menu item is highlighted and any sequence of presses, holds,
`OnMenuSelected`, `RequestHighlight` and `RemoveHighlight`, a menu item of the
tree is highlighted if and only if it is the current item, so at most one of
them is highlighted. When no item at all was highlighted before, the same holds
of every item. -/
theorem C13_single_highlight (s : UMenu) (Children : List UWidget) (es : List MenuEvent)
    (h : ∀ q ∈ MenuItemsOf Children, (s.Items q).Highlighted = false) :
    (∀ q ∈ MenuItemsOf Children,
      ((((s.NativeConstruct Children).Run es).Items q).Highlighted = true ↔
        ((s.NativeConstruct Children).Run es).CurrentMenuItem = some q)) ∧
    (∀ p ∈ MenuItemsOf Children, ∀ q ∈ MenuItemsOf Children,
      (((s.NativeConstruct Children).Run es).Items p).Highlighted = true →
      (((s.NativeConstruct Children).Run es).Items q).Highlighted = true → p = q) ∧
    ((∀ q, (s.Items q).Highlighted = false) →
      ∀ q, ((((s.NativeConstruct Children).Run es).Items q).Highlighted = true ↔
        ((s.NativeConstruct Children).Run es).CurrentMenuItem = some q)) := by
  have key : ∀ q, (s.Items q).Highlighted = false →
      ((((s.NativeConstruct Children).Run es).Items q).Highlighted = true ↔
        ((s.NativeConstruct Children).Run es).CurrentMenuItem = some q) :=
    fun q hq => Run_agreement es q _ (NativeConstruct_agreement s Children q hq)
  refine ⟨fun q hq => key q (h q hq), ?_, fun hall q => key q (hall q)⟩
  intro p hp q hq h1 h2
  have e1 := (key p (h p hp)).1 h1
  have e2 := (key q (h q hq)).1 h2
  rw [e1] at e2
  exact Option.some.inj e2

/-- C13 at the example menu: after construction and the calls of
`ExampleEvents`, item 2 is current and the only highlighted item of the
tree. -/
theorem C13_single_highlight_witness :
    (∀ q ∈ MenuItemsOf ExampleTree, (ExampleMenu.Items q).Highlighted = false) ∧
    ((ExampleMenu.NativeConstruct ExampleTree).Run ExampleEvents).CurrentMenuItem = some 2 ∧
    (∀ q ∈ MenuItemsOf ExampleTree,
      ((((ExampleMenu.NativeConstruct ExampleTree).Run ExampleEvents).Items q).Highlighted = true ↔
        ((ExampleMenu.NativeConstruct ExampleTree).Run ExampleEvents).CurrentMenuItem = some q)) :=
  ⟨by decide, by decide,
    (C13_single_highlight ExampleMenu ExampleTree ExampleEvents (by decide)).1⟩

/-- Without current item and without remembered item, a press or a hold changes
nothing. -/
theorem Step_idle (s : UMenu) (e : MenuEvent) (hc : s.CurrentMenuItem = none)
    (hr : s.HighlightedMenuItemBeforeRemoval = none) (he : e.IsNavigation = true) :
    s.Step e = s := by
  cases e with
  | Press d =>
    cases d <;>
      simp [UMenu.Step, UMenu.Press, UMenu.OnMenuUp, UMenu.OnMenuDown, UMenu.OnMenuLeft,
        UMenu.OnMenuRight, UMenu.UpdateHighlightedItemBeforeNavigation,
        UMenu.UpdateHighlightedItem, hc, hr]
  | Hold d =>
    cases d <;>
      simp [UMenu.Step, UMenu.Hold, UMenu.OnMenuUpHold, UMenu.OnMenuDownHold,
        UMenu.OnMenuLeftHold, UMenu.OnMenuRightHold, hc]
  | Selected => simp [MenuEvent.IsNavigation] at he
  | RequestHighlight m => simp [MenuEvent.IsNavigation] at he
  | RemoveHighlight m => simp [MenuEvent.IsNavigation] at he

/-- Without current item and without remembered item, a sequence of presses and
holds changes nothing. -/
theorem Run_idle (es : List MenuEvent) (s : UMenu) (hc : s.CurrentMenuItem = none)
    (hr : s.HighlightedMenuItemBeforeRemoval = none)
    (he : ∀ e ∈ es, e.IsNavigation = true) : s.Run es = s := by
  induction es with
  | nil => rfl
  | cons e es ih =>
    have h1 : s.Step e = s := Step_idle s e hc hr (he e (List.mem_cons_self e es))
    have h2 := ih (fun x hx => he x (List.mem_cons_of_mem e hx))
    simpa [UMenu.Run, h1] using h2

/-- C14. With a current item `c` whose navigation mode on the axis is
`HighlightItem` and whose neighbour in the pressed direction is null, the press
un-highlights `c` and leaves no current item, without touching
`HighlightedMenuItemBeforeRemoval`; if that was null, every later sequence of
presses and holds leaves the menu state unchanged. -/
theorem C14_missing_neighbour (s : UMenu) (d : EMenuDirection) (c : Nat)
    (hc : s.CurrentMenuItem = some c)
    (hnav : (s.Items c).Navigation d = EMenuNavigation.HighlightItem)
    (hn : (s.Items c).Neighbour d = none) :
    ((s.Press d).Items c).Highlighted = false ∧
    (s.Press d).CurrentMenuItem = none ∧
    (s.Press d).HighlightedMenuItemBeforeRemoval = s.HighlightedMenuItemBeforeRemoval ∧
    (s.HighlightedMenuItemBeforeRemoval = none →
      ∀ es : List MenuEvent, (∀ e ∈ es, e.IsNavigation = true) →
        (s.Press d).Run es = s.Press d) := by
  obtain ⟨h1, h2, h3⟩ := UpdateHighlightedItem_shown s none
    (decide (d = EMenuDirection.Up ∨ d = EMenuDirection.Right)) false (fun n hn => by cases hn)
  rw [Press_current s d c hc, hnav, hn]
  refine ⟨?_, h1, h2, ?_⟩
  · rw [h3 c]
    simp [hc]
  · intro hr es hes
    exact Run_idle es _ h1 (h2.trans hr) hes

/-- C14 at the example menu with item 1 current: item 1 has no upper neighbour,
so pressing up un-highlights it and clears the current item, and the presses
and holds of `ExampleNavigation` that follow change nothing. -/
theorem C14_missing_neighbour_witness :
    ExampleAtTop.CurrentMenuItem = some 1 ∧
    (ExampleAtTop.Items 1).MenuItemUp = none ∧
    ExampleAtTop.HighlightedMenuItemBeforeRemoval = none ∧
    ((ExampleAtTop.Press EMenuDirection.Up).Items 1).Highlighted = false ∧
    (ExampleAtTop.Press EMenuDirection.Up).CurrentMenuItem = none ∧
    (ExampleAtTop.Press EMenuDirection.Up).Run ExampleNavigation =
      ExampleAtTop.Press EMenuDirection.Up :=
  ⟨by decide, by decide, by decide,
    (C14_missing_neighbour ExampleAtTop EMenuDirection.Up 1 (by decide) (by decide)
      (by decide)).1,
    (C14_missing_neighbour ExampleAtTop EMenuDirection.Up 1 (by decide) (by decide)
      (by decide)).2.1,
    (C14_missing_neighbour ExampleAtTop EMenuDirection.Up 1 (by decide) (by decide)
      (by decide)).2.2.2 (by decide) ExampleNavigation (by decide)⟩

/-- `UpdateHighlightedItem` keeps the current item, if there is one,
highlighted. -/
theorem UpdateHighlightedItem_current_highlighted (s : UMenu) (NewItem : Option Nat)
    (nav : EMenuNavigation) (a b : Bool)
    (h : ∀ c, s.CurrentMenuItem = some c → (s.Items c).Highlighted = true) :
    ∀ c, (s.UpdateHighlightedItem NewItem nav a b).CurrentMenuItem = some c →
      ((s.UpdateHighlightedItem NewItem nav a b).Items c).Highlighted = true := by
  cases nav with
  | Disabled => exact h
  | IncreaseDecreaseValue =>
    have hs : (s.UpdateHighlightedItem NewItem EMenuNavigation.IncreaseDecreaseValue a b).Items
          = s.Items ∧
        (s.UpdateHighlightedItem NewItem EMenuNavigation.IncreaseDecreaseValue a b).CurrentMenuItem
          = s.CurrentMenuItem := by
      simp only [UMenu.UpdateHighlightedItem, UMenu.UpdateValue]
      split
      · exact ⟨rfl, rfl⟩
      · split_ifs <;> exact ⟨rfl, rfl⟩
    rw [hs.1, hs.2]
    exact h
  | HighlightItem =>
    by_cases hh : ∀ n, NewItem = some n → (s.Items n).Visible = true
    · obtain ⟨h1, -, h3⟩ := UpdateHighlightedItem_shown s NewItem a b hh
      intro c hc
      rw [h1] at hc
      rw [h3 c, if_pos hc.symm]
    · push_neg at hh
      obtain ⟨n, hn, hvn⟩ := hh
      have hvn2 : (s.Items n).Visible = false := by simpa using hvn
      rw [hn, UpdateHighlightedItem_hidden s n a b hvn2]
      exact h

/-- `UpdateHighlightedItemBeforeNavigation` keeps the current item, if there is
one, highlighted. -/
theorem UpdateHighlightedItemBeforeNavigation_current_highlighted (s : UMenu) (v : Bool)
    (h : ∀ c, s.CurrentMenuItem = some c → (s.Items c).Highlighted = true) :
    ∀ c, (s.UpdateHighlightedItemBeforeNavigation v).CurrentMenuItem = some c →
      ((s.UpdateHighlightedItemBeforeNavigation v).Items c).Highlighted = true := by
  unfold UMenu.UpdateHighlightedItemBeforeNavigation
  cases hc : s.CurrentMenuItem with
  | some c0 => simpa [hc] using h
  | none =>
    cases hr : s.HighlightedMenuItemBeforeRemoval with
    | none => simp [hc]
    | some m =>
      simp only []
      split_ifs <;>
        first
        | exact h
        | (intro c hcur
           have hcm : c = m := (Option.some.inj hcur).symm
           simp only [SetHighlightedState_Highlighted]
           simp [hcm])

/-- Every handler call keeps the current item, if there is one, highlighted. -/
theorem Step_current_highlighted (s : UMenu) (e : MenuEvent)
    (h : ∀ c, s.CurrentMenuItem = some c → (s.Items c).Highlighted = true) :
    ∀ c, (s.Step e).CurrentMenuItem = some c → ((s.Step e).Items c).Highlighted = true := by
  cases e with
  | Press d =>
    simp only [UMenu.Step]
    rw [Press_eq]
    have h1 := UpdateHighlightedItemBeforeNavigation_current_highlighted s
      (decide (d = EMenuDirection.Up ∨ d = EMenuDirection.Down)) h
    split
    · exact h1
    · exact UpdateHighlightedItem_current_highlighted _ _ _ _ _ h1
  | Hold d =>
    simp only [UMenu.Step]
    cases hc : s.CurrentMenuItem with
    | none =>
      have : s.Hold d = s := by
        cases d <;>
          simp [UMenu.Hold, UMenu.OnMenuUpHold, UMenu.OnMenuDownHold, UMenu.OnMenuLeftHold,
            UMenu.OnMenuRightHold, hc]
      rw [this]
      exact h
    | some c0 =>
      rw [Hold_current s d c0 hc]
      split_ifs
      · exact UpdateHighlightedItem_current_highlighted _ _ _ _ _ h
      · exact h
  | Selected =>
    simp only [UMenu.Step, UMenu.OnMenuSelected]
    split
    · exact h
    · split_ifs <;> exact h
  | RequestHighlight m =>
    simp only [UMenu.Step, UMenu.RequestHighlight]
    split_ifs
    · exact h
    · exact UpdateHighlightedItem_current_highlighted _ _ _ _ _ h
  | RemoveHighlight m =>
    simp only [UMenu.Step, UMenu.RemoveHighlight]
    split_ifs
    · exact h
    · exact UpdateHighlightedItem_current_highlighted
        { s with HighlightedMenuItemBeforeRemoval := s.CurrentMenuItem } _ _ _ _ h

/-- Every sequence of handler calls keeps the current item, if there is one,
highlighted. -/
theorem Run_current_highlighted (es : List MenuEvent) :
    ∀ s : UMenu, (∀ c, s.CurrentMenuItem = some c → (s.Items c).Highlighted = true) →
      ∀ c, (s.Run es).CurrentMenuItem = some c → ((s.Run es).Items c).Highlighted = true := by
  induction es with
  | nil => exact fun s h => h
  | cons e es ih =>
    intro s h
    simpa [UMenu.Run] using ih (s.Step e) (Step_current_highlighted s e h)

/-- After `NativeConstruct` the current item, if there is one, is
highlighted. -/
theorem NativeConstruct_current_highlighted (s : UMenu) (Children : List UWidget) :
    ∀ c, (s.NativeConstruct Children).CurrentMenuItem = some c →
      ((s.NativeConstruct Children).Items c).Highlighted = true := by
  intro c
  unfold UMenu.NativeConstruct
  cases hc : (s.InitializeMenuItems Children).CurrentMenuItem with
  | none => simp [hc]
  | some c0 =>
    simp only [hc, SetHighlightedState_Highlighted, (SetHighlightedState_fields _ _ _ _ _).1]
    intro hcc
    simp [Option.some.inj hcc]

/-- C9. A removed highlight is restored before the next navigation: in every
state `s` of a constructed menu (reached by `NativeConstruct` and any sequence
of handler calls) with no remembered item and a current item `m` whose
navigation mode on the pressed axis is `HighlightItem`, `RemoveHighlight(m)`
followed by the press ends with the same current item and the same highlight
flag on every item as the press alone, and with no remembered item again. When
the mode of `m` on that axis is not `HighlightItem`, the press after
`RemoveHighlight(m)` leaves the current item null and keeps `m` remembered. -/
theorem C9_removed_highlight_restored (s0 : UMenu) (Children : List UWidget)
    (es : List MenuEvent) (s : UMenu) (hs : s = (s0.NativeConstruct Children).Run es)
    (d : EMenuDirection) (m : Nat)
    (_hr : s.HighlightedMenuItemBeforeRemoval = none) (hc : s.CurrentMenuItem = some m) :
    ((s.Items m).Navigation d = EMenuNavigation.HighlightItem →
      ((s.RemoveHighlight (some m)).Press d).CurrentMenuItem = (s.Press d).CurrentMenuItem ∧
      (∀ q, (((s.RemoveHighlight (some m)).Press d).Items q).Highlighted =
        ((s.Press d).Items q).Highlighted) ∧
      ((s.RemoveHighlight (some m)).Press d).HighlightedMenuItemBeforeRemoval = none) ∧
    ((s.Items m).Navigation d ≠ EMenuNavigation.HighlightItem →
      ((s.RemoveHighlight (some m)).Press d).CurrentMenuItem = none ∧
      ((s.RemoveHighlight (some m)).Press d).HighlightedMenuItemBeforeRemoval = some m) := by
  have hm : (s.Items m).Highlighted = true := by
    subst hs
    exact Run_current_highlighted es _ (NativeConstruct_current_highlighted s0 Children) m hc
  exact ⟨fun hnav => (RemoveHighlight_then_Press s d m hc).1 hnav (Or.inl hm),
    (RemoveHighlight_then_Press s d m hc).2⟩

/-- C9 at the example menu after construction and a press of up (item 1
current): removing the highlight of item 1 and pressing down ends, like
pressing down alone, with item 2 current, the same highlight flags and nothing
remembered. -/
theorem C9_removed_highlight_restored_witness :
    ExampleAtTop = (ExampleMenu.NativeConstruct ExampleTree).Run
      [MenuEvent.Press EMenuDirection.Up] ∧
    ExampleAtTop.HighlightedMenuItemBeforeRemoval = none ∧
    ExampleAtTop.CurrentMenuItem = some 1 ∧
    (ExampleAtTop.Items 1).Navigation EMenuDirection.Down = EMenuNavigation.HighlightItem ∧
    ((ExampleAtTop.RemoveHighlight (some 1)).Press EMenuDirection.Down).CurrentMenuItem =
      (ExampleAtTop.Press EMenuDirection.Down).CurrentMenuItem ∧
    (∀ q, (((ExampleAtTop.RemoveHighlight (some 1)).Press EMenuDirection.Down).Items
        q).Highlighted = ((ExampleAtTop.Press EMenuDirection.Down).Items q).Highlighted) ∧
    ((ExampleAtTop.RemoveHighlight (some 1)).Press
      EMenuDirection.Down).HighlightedMenuItemBeforeRemoval = none ∧
    (ExampleAtTop.Press EMenuDirection.Down).CurrentMenuItem = some 2 :=
  ⟨rfl, by decide, by decide, by decide,
    ((C9_removed_highlight_restored ExampleMenu ExampleTree [MenuEvent.Press EMenuDirection.Up]
      ExampleAtTop rfl EMenuDirection.Down 1 (by decide) (by decide)).1 (by decide)).1,
    ((C9_removed_highlight_restored ExampleMenu ExampleTree [MenuEvent.Press EMenuDirection.Up]
      ExampleAtTop rfl EMenuDirection.Down 1 (by decide) (by decide)).1 (by decide)).2.1,
    ((C9_removed_highlight_restored ExampleMenu ExampleTree [MenuEvent.Press EMenuDirection.Up]
      ExampleAtTop rfl EMenuDirection.Down 1 (by decide) (by decide)).1 (by decide)).2.2,
    by decide⟩

end USK
